import Mathlib

/-!
Verification of the cassia-autoui core against its specification.

The Python sources are shallowly embedded: Python strings are Lean `String`
(operated on through their `List Char` data, since Python slicing, splitting
and counting are character based), Python dicts appearing as JSON values are
an explicit `PyJson` inductive (JSON numbers are modelled as integers; no
claim touches fractional payloads), Python `None`-able booleans are
`Option Bool`, and fallible constructs return `Except`/`Option`.
Stateful classes (`SnapshotParser`, `TerminalCapture`, `ToolExecutor`,
`CassiaAgent._messages`) are embedded as explicit state records threaded
through the translated functions.
-/

namespace Cassia

/-! ## Python string primitives

Helpers mirroring the exact Python `str` operations used by the sources.
All of them work on `String.data` so that slicing and counting are by
character, as in Python. -/

/-- Python whitespace set used by `str.strip` (ASCII subset, which is all the
sources ever feed it). -/
def pySpace (c : Char) : Bool :=
  c = ' ' ∨ c = '\t' ∨ c = '\n' ∨ c = '\r' ∨ c = '\x0b' ∨ c = '\x0c'

/-- Python `s.strip()`. -/
def pyStrip (s : String) : String :=
  String.mk (((s.data.dropWhile pySpace).reverse.dropWhile pySpace).reverse)

/-- Python slice `s[:n]` (character based). -/
def pyTake (s : String) (n : Nat) : String :=
  String.mk (s.data.take n)

/-- Python slice `s[n:]` (character based). -/
def pyDrop (s : String) (n : Nat) : String :=
  String.mk (s.data.drop n)

/-- Does list `t` occur at the head of `s`? -/
def startsWithL (t s : List Char) : Bool :=
  match t, s with
  | [], _ => true
  | _ :: _, [] => false
  | c :: cs, d :: ds => c = d && startsWithL cs ds

/-- Does `t` occur somewhere inside `s`? -/
def isSubL (t : List Char) : List Char → Bool
  | [] => startsWithL t []
  | c :: s2 => startsWithL t (c :: s2) || isSubL t (s2)

/-- Python `t in s` (substring containment). -/
def pyIn (t s : String) : Bool :=
  isSubL t.data s.data

/-- Core loop of Python `s.count(t)` for a non-empty needle `c0 :: t0`:
left-to-right, non-overlapping occurrences.  The recursion advances through
`s` by at least one character per step, so it is phrased structurally on a
fuel bounded below by `s.length`; `pyCount` supplies ample fuel. -/
def occGo (c0 : Char) (t0 : List Char) : Nat → List Char → Nat
  | _, [] => 0
  | 0, _ :: _ => 0
  | fuel + 1, c :: s2 =>
    if startsWithL (c0 :: t0) (c :: s2) then 1 + occGo c0 t0 fuel (s2.drop t0.length)
    else occGo c0 t0 fuel s2

/-- Python `s.count(t)`: the empty needle counts `len(s) + 1`. -/
def pyCount (s t : String) : Nat :=
  match t.data with
  | [] => s.data.length + 1
  | c0 :: t0 => occGo c0 t0 s.data.length s.data

/-- Core loop of Python `s.split(sep)` for a non-empty separator; fuel as in
`occGo`. -/
def splitGo (c0 : Char) (t0 : List Char) : Nat → List Char → List Char → List (List Char)
  | _, cur, [] => [cur.reverse]
  | 0, cur, rest => [cur.reverse ++ rest]
  | fuel + 1, cur, c :: s2 =>
    if startsWithL (c0 :: t0) (c :: s2) then
      cur.reverse :: splitGo c0 t0 fuel [] (s2.drop t0.length)
    else
      splitGo c0 t0 fuel (c :: cur) s2

/-- Python `s.split(sep)` with `sep` non-empty (the sources never split on
an empty separator, which Python rejects). -/
def pySplit (s sep : String) : List String :=
  match sep.data with
  | [] => [s]
  | c0 :: t0 => (splitGo c0 t0 s.data.length [] s.data).map String.mk

/-- Python `sep.join(parts)`. -/
def pyJoin (sep : String) : List String → String
  | [] => ""
  | [x] => x
  | x :: y :: xs => x ++ sep ++ pyJoin sep (y :: xs)

/-- Python `s.split(sep, maxsplit)` for a single-character separator
(the source only uses `packet.split(":", 3)`). -/
def pySplitMax (sepc : Char) : Nat → List Char → List Char → List (List Char)
  | _, cur, [] => [cur.reverse]
  | 0, cur, rest => [cur.reverse ++ rest]
  | k + 1, cur, c :: s2 =>
    if c = sepc then cur.reverse :: pySplitMax sepc k [] s2
    else pySplitMax sepc (k + 1) (c :: cur) s2

/-! ## C1: `CassiaAgent.__init__` passes an unknown keyword to `SnapshotParser`

`src/lib/snapshot.py` line 48 declares `def __init__(self, diff_threshold:
float = 0.6)`, while `src/agent/core.py` line 77 runs
`SnapshotParser(diff_threshold=diff_threshold, max_lines=snapshot_max_lines)`.
We embed CPython call semantics for keyword arguments: a keyword whose name is
not among the declared parameters raises `TypeError`. -/

inductive PyErr where
  | typeError
  deriving DecidableEq, Repr

/-- Keyword parameter names accepted by `SnapshotParser.__init__`
(besides `self`), from `src/lib/snapshot.py` line 48. -/
def snapshotInitParams : List String := ["diff_threshold"]

/-- CPython keyword-call check: every supplied keyword must name a declared
parameter, otherwise the call raises `TypeError` before the body runs. -/
def pyCallKw (params : List String) (kwargs : List String) : Except PyErr Unit :=
  if kwargs.all (fun k => params.contains k) then Except.ok () else Except.error PyErr.typeError

/-- A config mapping as handed to `CassiaAgent.__init__` (values are opaque:
the keyword names in the failing call do not depend on them). -/
structure AgentConfig where
  diffThreshold : Option Int
  snapshotMaxLines : Option Int

/-- Embedding of `CassiaAgent.__init__` (src/agent/core.py lines 37-90) up to
its first fallible step.  The statements before line 77 only read the config
dict with defaults and build the LLM client object; none of them can raise for
any config.  Line 77 then calls
`SnapshotParser(diff_threshold=..., max_lines=...)`, i.e. it always supplies
the keyword set `{diff_threshold, max_lines}` whatever the config holds. -/
def cassiaAgentInit (_config : AgentConfig) : Except PyErr Unit :=
  match pyCallKw snapshotInitParams ["diff_threshold", "max_lines"] with
  | Except.error e => Except.error e
  | Except.ok _ => Except.ok ()

/-! ## Terminal helpers: `extract_command_output` (C9) -/

/-- The shell-prompt pattern `^\s*\S+[@:]\S*[#$]\s*$` from
`src/lib/terminal.py` line 459, as a decision procedure.  It is only ever
applied to `line.strip()`, a string with no leading or trailing whitespace;
on such a string the pattern matches exactly when the string has no
whitespace at all, ends in `#` or `$`, starts with at least one other
character, and some character strictly between the first position and the
final sign is `@` or `:`. -/
def promptMatch (s : String) : Bool :=
  let l := s.data
  (decide (3 ≤ l.length)) &&
  l.all (fun c => !pySpace c) &&
  (match l.getLast? with
   | some c => c = '#' ∨ c = '$'
   | none => false) &&
  ((l.drop 1).dropLast.any (fun c => c = '@' ∨ c = ':'))

/-- The `while lines and re.match(prompt, lines[-1].strip()): lines =
lines[:-1]` loop of `extract_command_output`: removing matching lines from
the end is exactly a `dropWhile` on the reversed list. -/
def dropTrailingPrompts (lines : List String) : List String :=
  (lines.reverse.dropWhile (fun l => promptMatch (pyStrip l))).reverse

/-- Embedding of `extract_command_output` (src/lib/terminal.py lines 445-462):
take the tail of `new_raw` past `baseline`, split into lines, drop a leading
command echo, drop trailing shell-prompt lines, join and strip. -/
def extractCommandOutput (newRaw baseline cmd : String) : String :=
  let diff := pyDrop newRaw baseline.data.length
  let lines := pySplit diff "\n"
  let lines :=
    match lines with
    | [] => lines
    | l0 :: rest => if pyIn (pyStrip cmd) l0 then rest else l0 :: rest
  let lines := dropTrailingPrompts lines
  pyStrip (pyJoin "\n" lines)

/-! ## JSON values

Python objects produced by `json.loads` and consumed by `json.dumps`.
Numbers are modelled as integers (no claim involves fractional JSON), and
dict iteration order is the insertion order of the pair list, matching
CPython dict semantics. -/

inductive PyJson where
  | null
  | bool (b : Bool)
  | num (n : Int)
  | str (s : String)
  | arr (l : List PyJson)
  | obj (l : List (String × PyJson))

instance : Inhabited PyJson := ⟨PyJson.null⟩

/-- Dict lookup `d.get(k)`, first binding wins. -/
def jsonGet (l : List (String × PyJson)) (k : String) : Option PyJson :=
  match l.find? (fun p => p.fst = k) with
  | some p => some p.snd
  | none => none

/-- Escape of one character inside a JSON string literal produced by
`json.dumps(..., ensure_ascii=False)`. -/
def jsonEscChar (c : Char) : List Char :=
  if c = '"' then ['\\', '"']
  else if c = '\\' then ['\\', '\\']
  else if c = '\n' then ['\\', 'n']
  else if c = '\r' then ['\\', 'r']
  else if c = '\t' then ['\\', 't']
  else if c = '\x08' then ['\\', 'b']
  else if c = '\x0c' then ['\\', 'f']
  else if c.toNat < 0x20 then
    ['\\', 'u', '0', '0', Nat.digitChar (c.toNat / 16), Nat.digitChar (c.toNat % 16)]
  else [c]

def jsonEsc (l : List Char) : List Char :=
  l.flatMap jsonEscChar

/-- `json.dumps` rendering of a string. -/
def jsonQuote (s : String) : String :=
  "\"" ++ String.mk (jsonEsc s.data) ++ "\""

/-- `indent` prefix of `json.dumps(..., indent=2)` at nesting level `lvl`. -/
def jsonIndent (lvl : Nat) : String :=
  String.mk (List.replicate (2 * lvl) ' ')

mutual

/-- `json.dumps(v, ensure_ascii=False, indent=2)` at nesting level `lvl`
(default separators, so items end with `,` and keys with `: `). -/
def jsonDumps : PyJson → Nat → String
  | PyJson.null, _ => "null"
  | PyJson.bool true, _ => "true"
  | PyJson.bool false, _ => "false"
  | PyJson.num n, _ => toString n
  | PyJson.str s, _ => jsonQuote s
  | PyJson.arr [], _ => "[]"
  | PyJson.arr (x :: xs), lvl =>
    "[\n" ++ jsonDumpsItems (x :: xs) (lvl + 1) ++ "\n" ++ jsonIndent lvl ++ "]"
  | PyJson.obj [], _ => "\x7b\x7d"
  | PyJson.obj (p :: ps), lvl =>
    "\x7b\n" ++ jsonDumpsProps (p :: ps) (lvl + 1) ++ "\n" ++ jsonIndent lvl ++ "\x7d"

def jsonDumpsItems : List PyJson → Nat → String
  | [], _ => ""
  | [x], lvl => jsonIndent lvl ++ jsonDumps x lvl
  | x :: y :: xs, lvl =>
    jsonIndent lvl ++ jsonDumps x lvl ++ ",\n" ++ jsonDumpsItems (y :: xs) lvl

def jsonDumpsProps : List (String × PyJson) → Nat → String
  | [], _ => ""
  | [p], lvl => jsonIndent lvl ++ jsonQuote p.fst ++ ": " ++ jsonDumps p.snd lvl
  | p :: q :: ps, lvl =>
    jsonIndent lvl ++ jsonQuote p.fst ++ ": " ++ jsonDumps p.snd lvl ++ ",\n"
      ++ jsonDumpsProps (q :: ps) lvl

end

/-! `json.loads`: a recursive-descent reader with explicit fuel (any fuel at
least the input length lets it finish; callers pass `length + 1`).
JSON numbers with a fraction or exponent are outside the model and make the
reader fail, as does any other malformed input — CPython raises
`JSONDecodeError` there and every caller catches it. -/

def jsonWs (c : Char) : Bool :=
  c = ' ' ∨ c = '\t' ∨ c = '\n' ∨ c = '\r'

def jsonSkipWs (l : List Char) : List Char :=
  l.dropWhile jsonWs

def hexVal (c : Char) : Option Nat :=
  if '0' ≤ c ∧ c ≤ '9' then some (c.toNat - '0'.toNat)
  else if 'a' ≤ c ∧ c ≤ 'f' then some (c.toNat - 'a'.toNat + 10)
  else if 'A' ≤ c ∧ c ≤ 'F' then some (c.toNat - 'A'.toNat + 10)
  else none

/-- Read the body of a JSON string literal (the opening quote is consumed). -/
def jsonReadStr : Nat → List Char → Option (List Char × List Char)
  | 0, _ => none
  | _ + 1, [] => none
  | fuel + 1, c :: rest =>
    if c = '"' then some ([], rest)
    else if c = '\\' then
      match rest with
      | [] => none
      | e :: rest2 =>
        let cont (d : Char) (rem : List Char) : Option (List Char × List Char) :=
          match jsonReadStr fuel rem with
          | some (body, rem2) => some (d :: body, rem2)
          | none => none
        if e = '"' then cont '"' rest2
        else if e = '\\' then cont '\\' rest2
        else if e = '/' then cont '/' rest2
        else if e = 'b' then cont '\x08' rest2
        else if e = 'f' then cont '\x0c' rest2
        else if e = 'n' then cont '\n' rest2
        else if e = 'r' then cont '\r' rest2
        else if e = 't' then cont '\t' rest2
        else if e = 'u' then
          match rest2 with
          | h1 :: h2 :: h3 :: h4 :: rest3 =>
            match hexVal h1, hexVal h2, hexVal h3, hexVal h4 with
            | some a, some b, some c2, some d2 =>
              cont (Char.ofNat (((a * 16 + b) * 16 + c2) * 16 + d2)) rest3
            | _, _, _, _ => none
          | _ => none
        else none
    else
      match jsonReadStr fuel rest with
      | some (body, rem2) => some (c :: body, rem2)
      | none => none

def digitsToNat (l : List Char) : Nat :=
  l.foldl (fun acc c => acc * 10 + (c.toNat - '0'.toNat)) 0

mutual

/-- Read one JSON value. -/
def jsonReadVal : Nat → List Char → Option (PyJson × List Char)
  | 0, _ => none
  | fuel + 1, l =>
    match jsonSkipWs l with
    | [] => none
    | c :: rest =>
      if c = 'n' then
        if startsWithL ['u', 'l', 'l'] rest then some (PyJson.null, rest.drop 3) else none
      else if c = 't' then
        if startsWithL ['r', 'u', 'e'] rest then some (PyJson.bool true, rest.drop 3) else none
      else if c = 'f' then
        if startsWithL ['a', 'l', 's', 'e'] rest then some (PyJson.bool false, rest.drop 4)
        else none
      else if c = '"' then
        match jsonReadStr (rest.length + 1) rest with
        | some (body, rem) => some (PyJson.str (String.mk body), rem)
        | none => none
      else if c = '[' then
        match jsonSkipWs rest with
        | ']' :: rem => some (PyJson.arr [], rem)
        | rest2 => match jsonReadArr fuel rest2 with
          | some (items, rem) => some (PyJson.arr items, rem)
          | none => none
      else if c = '\x7b' then
        match jsonSkipWs rest with
        | '\x7d' :: rem => some (PyJson.obj [], rem)
        | rest2 => match jsonReadObj fuel rest2 with
          | some (props, rem) => some (PyJson.obj props, rem)
          | none => none
      else if c = '-' then
        let ds := rest.takeWhile Char.isDigit
        let rem := rest.dropWhile Char.isDigit
        if ds = [] then none
        else match rem with
          | e :: _ => if e = '.' ∨ e = 'e' ∨ e = 'E' then none
                      else some (PyJson.num (-(digitsToNat ds : Int)), rem)
          | [] => some (PyJson.num (-(digitsToNat ds : Int)), [])
      else if c.isDigit then
        let ds := (c :: rest).takeWhile Char.isDigit
        let rem := (c :: rest).dropWhile Char.isDigit
        match rem with
        | e :: _ => if e = '.' ∨ e = 'e' ∨ e = 'E' then none
                    else some (PyJson.num (digitsToNat ds : Int), rem)
        | [] => some (PyJson.num (digitsToNat ds : Int), [])
      else none

/-- Read the items of a non-empty JSON array (after `[`). -/
def jsonReadArr : Nat → List Char → Option (List PyJson × List Char)
  | 0, _ => none
  | fuel + 1, l =>
    match jsonReadVal fuel l with
    | none => none
    | some (v, rem) =>
      match jsonSkipWs rem with
      | ',' :: rem2 =>
        match jsonReadArr fuel rem2 with
        | some (vs, rem3) => some (v :: vs, rem3)
        | none => none
      | ']' :: rem2 => some ([v], rem2)
      | _ => none

/-- Read the properties of a non-empty JSON object (after the brace). -/
def jsonReadObj : Nat → List Char → Option (List (String × PyJson) × List Char)
  | 0, _ => none
  | fuel + 1, l =>
    match jsonSkipWs l with
    | '"' :: rest =>
      match jsonReadStr (rest.length + 1) rest with
      | none => none
      | some (key, rem) =>
        match jsonSkipWs rem with
        | ':' :: rem2 =>
          match jsonReadVal fuel rem2 with
          | none => none
          | some (v, rem3) =>
            match jsonSkipWs rem3 with
            | ',' :: rem4 =>
              match jsonReadObj fuel rem4 with
              | some (ps, rem5) => some ((String.mk key, v) :: ps, rem5)
              | none => none
            | '\x7d' :: rem4 => some ([(String.mk key, v)], rem4)
            | _ => none
        | _ => none
    | _ => none

end

/-- `json.loads(s)`: the whole input must be one value plus whitespace. -/
def jsonLoads (s : String) : Option PyJson :=
  match jsonReadVal (s.data.length + 1) s.data with
  | some (v, rest) => if jsonSkipWs rest = [] then some v else none
  | none => none

/-! ## Terminal capture: message framing and event handling (C8, C10)

Embedding of `TerminalCapture._parse_message`, `_parse_engineio_v3_payload`,
`_parse_single_packet` and `_handle_event` (src/lib/terminal.py lines
210-310).  The mutable capture object is the explicit `TermState`: its
`raw_buffer`, the sequence of strings fed to the pyte virtual terminal
(`feeds`, in feed order), and the emulator geometry. -/

structure TermState where
  rawBuffer : String
  feeds : List String
  cols : Nat
  rows : Nat
  deriving DecidableEq, Repr

def initTermState : TermState := ⟨"", [], 80, 24⟩

/-- `TerminalCapture._handle_event`: a `data` event with a string payload is
appended to the raw buffer and fed to the emulator exactly once; a `resize`
event with a dict payload updates the geometry (integer fields; the sources
only ever send integers there).  Everything else is ignored.  The event name
arrives as a decoded JSON value and Python `==` against a string is false for
any non-string. -/
def handleEvent (st : TermState) (name : PyJson) (data : PyJson) : TermState :=
  match name with
  | PyJson.str n =>
    if n = "data" then
      match data with
      | PyJson.str s =>
        { st with rawBuffer := st.rawBuffer ++ s, feeds := st.feeds ++ [s] }
      | _ => st
    else if n = "resize" then
      match data with
      | PyJson.obj o =>
        let newCols := match jsonGet o "cols" with
          | some (PyJson.num k) => k.toNat
          | _ => st.cols
        let newRows := match jsonGet o "rows" with
          | some (PyJson.num k) => k.toNat
          | _ => st.rows
        { st with cols := newCols, rows := newRows }
      | _ => st
    else st
  | _ => st

/-- `TerminalCapture._parse_single_packet`: dispatch on the Socket.IO packet
shape.  `42<json array>` is Engine.IO v4/Socket.IO 1.x+, `5:...:...:<json>`
is Socket.IO 0.9, and a bare JSON object with `name`/`args` is the webssh2
fallback.  All decode failures are swallowed (`except ...: pass`). -/
def parseSinglePacket (st : TermState) (packet : String) : TermState :=
  match packet.data with
  | [] => st
  | c :: cs =>
    if startsWithL ['4', '2'] (c :: cs) then
      match jsonLoads (pyDrop packet 2) with
      | some (PyJson.arr (a :: b :: _)) => handleEvent st a b
      | _ => st
    else if c = '5' then
      let parts := (pySplitMax ':' 3 [] (c :: cs)).map String.mk
      match parts.drop 3 with
      | p3 :: _ =>
        if p3 = "" then st
        else
          match jsonLoads p3 with
          | some (PyJson.obj o) =>
            let eventName := (jsonGet o "name").getD (PyJson.str "")
            match (jsonGet o "args").getD (PyJson.arr []) with
            | PyJson.arr (a0 :: _) => handleEvent st eventName a0
            | _ => st
          | _ => st
      | [] => st
    else if c = '\x7b' ∨ c = '[' then
      match jsonLoads packet with
      | some (PyJson.obj o) =>
        if (jsonGet o "name").isSome ∧ (jsonGet o "args").isSome then
          match (jsonGet o "args").getD (PyJson.arr []) with
          | PyJson.arr (a0 :: _) => handleEvent st ((jsonGet o "name").getD PyJson.null) a0
          | _ => st
        else st
      | _ => st
    else st

/-- The loop of `TerminalCapture._parse_engineio_v3_payload`: repeatedly skip
blanks, read `<decimal length>:<payload>`.  A missing colon raises
`ValueError`, which the surrounding handler maps to the packets collected so
far (or `None` if there are none); a non-digit length prefix is an immediate
`return None`.  A declared length running past the end of the body appends
the remaining tail and stops.  Every iteration consumes at least two
characters, so fuel `length + 1` is ample. -/
def v3Go (acc : List String) : Nat → List Char → Option (List String)
  | _, [] => if acc.isEmpty then none else some acc.reverse
  | 0, _ :: _ => if acc.isEmpty then none else some acc.reverse
  | fuel + 1, c :: cs =>
    let l := (c :: cs).dropWhile (fun ch => ch = ' ' ∨ ch = '\t' ∨ ch = '\r' ∨ ch = '\n')
    match l with
    | [] => if acc.isEmpty then none else some acc.reverse
    | l0 :: ls =>
      let lengthStr := (l0 :: ls).takeWhile (fun ch => ch ≠ ':')
      let afterColon := ((l0 :: ls).dropWhile (fun ch => ch ≠ ':')).drop 1
      if lengthStr.length = (l0 :: ls).length then
        -- no colon: `body.index` raises ValueError
        if acc.isEmpty then none else some acc.reverse
      else if lengthStr.isEmpty ∨ ¬ lengthStr.all Char.isDigit then none
      else
        let n := digitsToNat lengthStr
        if afterColon.length < n then some ((String.mk afterColon :: acc).reverse)
        else v3Go (String.mk (afterColon.take n) :: acc) fuel (afterColon.drop n)

/-- `TerminalCapture._parse_engineio_v3_payload` on the whole body. -/
def parseEngineIOv3 (body : String) : Option (List String) :=
  v3Go [] (body.data.length + 1) body.data

/-- Splitting on the Socket.IO 0.x frame delimiter
`re.split(r'�\d*�', raw)`: a left-to-right scan; at each U+FFFD,
the (unambiguous) digit run must be followed by another U+FFFD to form a
delimiter, otherwise the character is literal text. -/
def fffdSplitGo (cur : List Char) : Nat → List Char → List (List Char)
  | _, [] => [cur.reverse]
  | 0, rest => [cur.reverse ++ rest]
  | fuel + 1, c :: s2 =>
    if c = '�' then
      match s2.dropWhile Char.isDigit with
      | d :: rest2 =>
        if d = '�' then cur.reverse :: fffdSplitGo [] fuel rest2
        else fffdSplitGo (c :: cur) fuel s2
      | [] => fffdSplitGo (c :: cur) fuel s2
    else fffdSplitGo (c :: cur) fuel s2

def fffdSplit (raw : String) : List String :=
  (fffdSplitGo [] raw.data.length raw.data).map String.mk

/-- Fold packets through `parseSinglePacket` after stripping, skipping
blanks, as the `\x1e`/`�` branches of `_parse_message` do. -/
def parseStripped (st : TermState) (parts : List String) : TermState :=
  parts.foldl
    (fun st p =>
      let p := pyStrip p
      if p.data.isEmpty then st else parseSinglePacket st p)
    st

/-- `TerminalCapture._parse_message` (src/lib/terminal.py lines 210-233):
try Engine.IO v4 record separators, then Socket.IO 0.x delimiters, then
Engine.IO v3 length-prefixed framing, then a single bare packet. -/
def parseMessage (st : TermState) (raw : String) : TermState :=
  match raw.data with
  | [] => st
  | c :: _ =>
    if pyIn "\x1e" raw then parseStripped st (pySplit raw "\x1e")
    else if pyIn "�" raw then parseStripped st (fffdSplit raw)
    else if c.isDigit ∧ pyIn ":" raw then
      match parseEngineIOv3 raw with
      | some packets => packets.foldl parseSinglePacket st
      | none => parseSinglePacket st (pyStrip raw)
    else parseSinglePacket st (pyStrip raw)

/-! ### The wait loop of `wait_for_new_terminal_text` (C10)

The polling loop (src/lib/terminal.py lines 397-442) is embedded over an
explicit schedule of polls: each `Poll` is what one iteration of the `while`
body observes — the capture's decoded raw text, its `ws_disconnected` flag,
and the wall-clock instant `time.time()` of that iteration (integer seconds;
only differences against the 5-second grace period matter).  An empty
schedule is the `while time.time() < deadline` guard failing, i.e. the
`TimeoutError` raise at the bottom. -/

structure Poll where
  raw : String
  wsDisconnected : Bool
  time : Int
  deriving Repr

inductive WaitResult where
  | found (raw : String)
  | connectionLost
  | timeout
  deriving DecidableEq, Repr

/-- One pass of the polling loop, threading `last_data_time` and
`last_raw_len`.  The success test is
`raw_text.count(target_text) > baseline_count`. -/
def waitNewLoop (target : String) (baselineCount : Nat) :
    List Poll → Option Int → Nat → WaitResult
  | [], _, _ => WaitResult.timeout
  | p :: rest, lastDataTime, lastRawLen =>
    if pyCount p.raw target > baselineCount then WaitResult.found p.raw
    else if p.wsDisconnected then
      let currentLen := p.raw.data.length
      if currentLen ≠ lastRawLen then waitNewLoop target baselineCount rest (some p.time) currentLen
      else
        match lastDataTime with
        | none => waitNewLoop target baselineCount rest (some p.time) lastRawLen
        | some t =>
          if p.time - t > 5 then WaitResult.connectionLost
          else waitNewLoop target baselineCount rest lastDataTime lastRawLen
    else waitNewLoop target baselineCount rest lastDataTime lastRawLen

/-- `wait_for_new_terminal_text(page, capture, target, baseline, timeout)`
over a schedule of polls. -/
def waitForNewTerminalText (target baseline : String) (polls : List Poll) : WaitResult :=
  waitNewLoop target (pyCount baseline target) polls none 0

/-! ## Tool executor: large-response cache and `ac_api_call` (C5, C6)

`ToolExecutor` state relevant to the claims: `_last_data_file`,
`_last_data_count`, and the set of cache files currently on disk (`fs`, the
paths produced by `tempfile.mkstemp` that have not been unlinked).  File
writes are modelled as always succeeding. -/

structure ExecSt where
  lastDataFile : Option String
  lastDataCount : Nat
  fs : List String
  deriving DecidableEq, Repr

/-- `ToolExecutor.cleanup` (src/agent/tools.py lines 1155-1163): unlink the
recorded cache file if it exists on disk; only then reset the record. -/
def execCleanup (s : ExecSt) : ExecSt :=
  match s.lastDataFile with
  | some p => if p ∈ s.fs then ⟨none, 0, s.fs.erase p⟩ else s
  | none => s

/-- The sample section of `_cache_large_response`: `json.dumps` of the first
five entries, truncated at 2000 characters. -/
def sampleText (data : List PyJson) : String :=
  let sampleStr := jsonDumps (PyJson.arr (data.take 5)) 0
  if sampleStr.data.length > 2000 then pyTake sampleStr 2000 ++ "\n  ..." else sampleStr

/-- `ToolExecutor._cache_large_response` (src/agent/tools.py lines
1165-1198): clean up the previous cache file, create a fresh temp file
(`freshPath`, guaranteed new by `mkstemp`), write the data, record it, and
return the summary text with the first five entries as samples. -/
def cacheLargeResponse (s : ExecSt) (freshPath : String) (data : List PyJson) :
    String × ExecSt :=
  let s1 := execCleanup s
  let s2 : ExecSt := ⟨some freshPath, data.length, s1.fs ++ [freshPath]⟩
  ("共 " ++ toString data.length ++ " 条数据，数据量较大，已缓存到本地。" ++ "\n\n前 5 条样例:\n"
      ++ sampleText data
      ++ "\n\n请使用 search_data(keyword) 工具按关键词搜索缓存数据，只返回匹配的条目。支持多关键词(逗号分隔)。",
    s2)

/-- The large-response divert test of `_tool_ac_api_call` (src/agent/tools.py
lines 1132-1142): a JSON array longer than `max_response_items`, or the
first of the wrapper fields `data|items|list|results|rows` holding such an
array, is sent to the cache. -/
def divertTarget (parsed : PyJson) (maxItems : Nat) : Option (List PyJson) :=
  match parsed with
  | PyJson.arr l => if l.length > maxItems then some l else none
  | PyJson.obj o =>
    (["data", "items", "list", "results", "rows"].filterMap
      (fun k =>
        match jsonGet o k with
        | some (PyJson.arr l) => if l.length > maxItems then some l else none
        | _ => none)).head?
  | _ => none

/-- The final size guard of `_tool_ac_api_call` (src/agent/tools.py lines
1144-1151): a pretty-printed JSON longer than 15000 characters becomes a
header, its first 8000 characters, and a trailing marker. -/
def acApiFormatJson (formatted : String) : String :=
  if formatted.data.length > 15000 then
    "(JSON 响应过长，共 " ++ toString formatted.data.length ++ " 字符，已截断)\n\n"
      ++ pyTake formatted 8000 ++ "\n... (已截断)"
  else formatted

/-- The successful-JSON tail of `_tool_ac_api_call`: divert to the cache or
pretty-print with the size guard. -/
def acApiHandleJson (s : ExecSt) (freshPath : String) (maxItems : Nat) (parsed : PyJson) :
    String × ExecSt :=
  match divertTarget parsed maxItems with
  | some l => cacheLargeResponse s freshPath l
  | none => (acApiFormatJson (jsonDumps parsed 0), s)

/-- The whole result handling of `_tool_ac_api_call` (src/agent/tools.py
lines 1118-1153), given the in-page fetch result `{ok, status, text}`
(`ok` is the browser's `resp.ok`, i.e. a 2xx status). -/
structure FetchResult where
  status : Nat
  text : String
  deriving DecidableEq, Repr

def respOk (r : FetchResult) : Bool :=
  200 ≤ r.status ∧ r.status < 300

def toolAcApiCall (s : ExecSt) (freshPath : String) (maxItems : Nat) (r : FetchResult) :
    String × ExecSt :=
  if respOk r then
    match jsonLoads r.text with
    | some parsed => acApiHandleJson s freshPath maxItems parsed
    | none =>
      if r.text.data.length > 8000 then
        ("(文本响应过长，共 " ++ toString r.text.data.length ++ " 字符，已截断)\n\n"
            ++ pyTake r.text 8000 ++ "\n... (已截断)", s)
      else if r.text.data.isEmpty then ("(空响应)", s)
      else (r.text, s)
  else
    ("API 调用失败: HTTP " ++ toString r.status ++ " - " ++ pyTake r.text 500, s)

/-! ## `fetch_gateways` and its tool wrapper (C7) -/

/-- Python truthiness of a JSON-decoded value (used by `x or {}`). -/
def pyTruthy : PyJson → Bool
  | PyJson.null => false
  | PyJson.bool b => b
  | PyJson.num n => n ≠ 0
  | PyJson.str s => ¬ s.data.isEmpty
  | PyJson.arr l => ¬ l.isEmpty
  | PyJson.obj o => ¬ o.isEmpty

/-- Python `str()` of a JSON-decoded scalar, as interpolated by f-strings
(container reprs are never reached by the claims). -/
def pyStr : PyJson → String
  | PyJson.str s => s
  | PyJson.num n => toString n
  | PyJson.null => "None"
  | PyJson.bool true => "True"
  | PyJson.bool false => "False"
  | _ => ""

/-- `extract_gateway_info` (src/lib/ac_api.py lines 196-215).  `gw` is a
decoded JSON gateway object; field lookups default to `""`.  A non-dict
`gw` would raise in Python and is mapped to an empty record here (no caller
reaches it: the input comes from a decoded JSON array). -/
def extractGatewayInfo (gw : PyJson) : PyJson :=
  match gw with
  | PyJson.obj g =>
    let getD := fun (o : List (String × PyJson)) (k : String) => (jsonGet o k).getD (PyJson.str "")
    let container := match jsonGet g "container" with
      | some v => if pyTruthy v then v else PyJson.obj []
      | none => PyJson.obj []
    let containerProps := match container with
      | PyJson.obj o => o
      | _ => []
    let appVersion : PyJson :=
      match (jsonGet containerProps "apps").getD (PyJson.arr []) with
      | PyJson.arr (PyJson.obj a :: _) =>
        PyJson.str (pyStr (getD a "name") ++ "." ++ pyStr (getD a "version"))
      | _ => PyJson.str ""
    let apProps := match jsonGet g "ap" with
      | some (PyJson.obj o) => o
      | _ => []
    PyJson.obj
      [("mac", getD g "mac"), ("name", getD g "name"), ("model", getD g "model"),
       ("sn", getD g "reserved3"), ("status", getD g "status"),
       ("uplink", getD apProps "uplink"), ("version", getD g "version"),
       ("containerVersion", getD containerProps "version"), ("appVersion", appVersion)]
  | _ => PyJson.obj []

/-- The in-page script of `fetch_gateways` (src/lib/ac_api.py lines
161-179): `fetch` the gateway list; a non-2xx response throws
`Error("HTTP " + status)`, otherwise the body is decoded as JSON. -/
def fetchGatewaysEval (r : FetchResult) : Except String PyJson :=
  if respOk r then
    match jsonLoads r.text with
    | some v => Except.ok v
    | none => Except.error "json decode error"
  else Except.error ("HTTP " ++ toString r.status)

/-- `fetch_gateways` (src/lib/ac_api.py lines 140-187): the whole evaluate
call is wrapped in `try/except Exception`, which logs and returns `[]`;
a non-array decode also returns `[]`. -/
def fetchGateways (r : FetchResult) : List PyJson :=
  match fetchGatewaysEval r with
  | Except.ok (PyJson.arr l) => l
  | Except.ok _ => []
  | Except.error _ => []

/-- `ToolExecutor._tool_fetch_gateways` (src/agent/tools.py lines
1058-1079): validate `status`, call `fetch_gateways`, and either report that
no gateways were found or return the extracted descriptors as pretty JSON.
The `mac → model` side cache is not modelled (no claim touches it). -/
def toolFetchGateways (r : FetchResult) (status : String) : String :=
  let status := if status = "all" ∨ status = "online" ∨ status = "offline" then status else "all"
  let gws := fetchGateways r
  if gws.isEmpty then
    let label := if status = "online" then "在线" else if status = "offline" then "离线" else ""
    "未找到" ++ label ++ "网关"
  else
    jsonDumps (PyJson.arr (gws.map extractGatewayInfo)) 0

/-- C7 as claimed: a non-2xx `/ap` response makes the `fetch_gateways` tool
fail with an APIError result — in particular its result differs from the
success report produced for a genuinely empty gateway list. -/
def fetchGatewaysAPIErrorClaim : Prop :=
  ∀ (r : FetchResult) (status : String), respOk r = false →
    toolFetchGateways r status ≠ toolFetchGateways ⟨200, "[]"⟩ status

/-! ## C5/C6 helper facts -/

/-- A 16000-character payload of the letter `a`. -/
def manyA (n : Nat) : String := String.mk (List.replicate n 'a')

/-- The invariant of the large-response cache: cache files on disk are
exactly tracked by `_last_data_file`, so there is at most one. -/
def execInv (s : ExecSt) : Prop :=
  s.fs.Nodup ∧ ∀ p ∈ s.fs, s.lastDataFile = some p

/-- Python `s.startswith(p)`. -/
def pyStartsWith (p s : String) : Bool :=
  startsWithL p.data s.data

/-- C5 as claimed: for a successful JSON response that is not diverted into
the large-response cache, a pretty-printed payload over 15 KB is returned
truncated at 15 KB (15000 characters) together with a truncation marker —
i.e. the result embeds the first 15000 characters of the dump. -/
def acApiTruncAt15kClaim : Prop :=
  ∀ (s : ExecSt) (fresh : String) (mi : Nat) (parsed : PyJson),
    divertTarget parsed mi = none →
    15000 < (jsonDumps parsed 0).data.length →
    ∃ pre post,
      (acApiHandleJson s fresh mi parsed).1 = pre ++ pyTake (jsonDumps parsed 0) 15000 ++ post

/-! ## Transcript compression (C2)

Embedding of `CassiaAgent._compress_context` (src/agent/core.py lines
385-445).  A transcript message keeps the fields the compressor reads:
`role`, `content` (absent modelled as `""`), the `tool_calls` of assistant
messages, and the `tool_call_id` of tool messages. -/

structure ToolCall where
  id : String
  name : String
  deriving DecidableEq, Repr

structure Msg where
  role : String
  content : String
  toolCalls : List ToolCall
  toolCallId : String
  deriving DecidableEq, Repr

instance : Inhabited Msg := ⟨⟨"", "", [], ""⟩⟩

/-- The scan `for i in range(candidate, -1, -1): if role == "user":
cut_index = i; break` started at `candidate`: the nearest `user` message at
or below the start index, with `cut_index = 0` when none is found (a hit at
index 0 and no hit are indistinguishable, exactly as in the source, where
both leave the transcript unchanged). -/
def scanUserDown (msgs : List Msg) : Nat → Nat
  | 0 => 0
  | i + 1 => if (msgs.getD (i + 1) default).role = "user" then i + 1 else scanUserDown msgs i

/-- `content.split("用户指令:")[1].split("\n")[0].strip()`. -/
def instructionLine (content : String) : String :=
  pyStrip ((pySplit ((pySplit content "用户指令:").getD 1 "") "\n").getD 0 "")

/-- The summary scan over the dropped prefix (src/agent/core.py lines
419-435): user messages contribute their instruction line, assistant
messages up to 100 characters of content plus the names of their tool
calls. -/
def summaryParts (old : List Msg) : List String :=
  old.flatMap (fun m =>
    if m.role = "user" then
      if pyIn "用户指令:" m.content then ["用户: " ++ instructionLine m.content] else []
    else if m.role = "assistant" then
      (if m.content.data.isEmpty then [] else ["助手: " ++ pyTake m.content 100])
        ++ m.toolCalls.map (fun tc => "工具调用: " ++ tc.name)
    else [])

/-- The synthetic summary message prepended to the retained tail. -/
def summaryMsg (old : List Msg) : Msg :=
  ⟨"user", "[历史摘要]\n" ++ pyJoin "\n" (summaryParts old), [], ""⟩

/-- `CassiaAgent._compress_context`.  The source indexes
`self._messages[i]` for `i` down from `candidate`; the embedding reads a
default message (role `""`) out of range, which matches the source whenever
`candidate < len`, i.e. whenever `context_max_messages ≥ 2` (for 0 and 1 the
Python code would raise `IndexError` instead). -/
def compressContext (cmm : Nat) (msgs : List Msg) : List Msg :=
  if msgs.length ≤ cmm then msgs
  else
    let keepTarget := cmm / 2
    let candidate := msgs.length - keepTarget
    if candidate = 0 then msgs
    else
      let cutIndex := scanUserDown msgs candidate
      if cutIndex = 0 then msgs
      else
        let old := msgs.take cutIndex
        let newMsgs := msgs.drop cutIndex
        if (summaryParts old).isEmpty then newMsgs
        else summaryMsg old :: newMsgs

def toolCallIds (m : Msg) : List String := m.toolCalls.map ToolCall.id

/-- The pairing property claimed for compressed transcripts: every `tool`
message is preceded by an `assistant` message declaring its
`tool_call_id`. -/
def WeakPaired (msgs : List Msg) : Prop :=
  ∀ k, k < msgs.length → (msgs.getD k default).role = "tool" →
    ∃ j, j < k ∧ (msgs.getD j default).role = "assistant" ∧
      (msgs.getD k default).toolCallId ∈ toolCallIds (msgs.getD j default)

/-- The transcript invariant the agent loop actually maintains (spec §3):
every `tool` message is preceded — directly or through other `tool`
messages only — by the `assistant` message declaring its id. -/
def StrongPaired (msgs : List Msg) : Prop :=
  ∀ k, k < msgs.length → (msgs.getD k default).role = "tool" →
    ∃ j, j < k ∧ (msgs.getD j default).role = "assistant" ∧
      (msgs.getD k default).toolCallId ∈ toolCallIds (msgs.getD j default) ∧
      ∀ m, j < m → m < k → (msgs.getD m default).role = "tool"

/-- The cut index as worded by the claim: the smallest `i` with
`i ≥ len - context_max_messages/2` whose message has role `user`. -/
def smallestUserIdxGE (msgs : List Msg) (c : Nat) : Option Nat :=
  (List.range msgs.length).find?
    (fun i => decide (c ≤ i) && decide ((msgs.getD i default).role = "user"))

/-- The cut index the code computes: the largest `i ≤ c` whose message has
role `user`. -/
def largestUserIdxLE (msgs : List Msg) (c : Nat) : Option Nat :=
  ((List.range (c + 1)).reverse).find?
    (fun i => decide ((msgs.getD i default).role = "user"))

/-- C2 as claimed: when the transcript is over the limit, compression drops
the prefix before the smallest user index `i ≥ len - cmm/2` and replaces it
with one synthetic user summary message. -/
def compressCutClaim (cmm : Nat) (msgs : List Msg) : Prop :=
  cmm < msgs.length →
  ∃ i s, smallestUserIdxGE msgs (msgs.length - cmm / 2) = some i ∧
    compressContext cmm msgs = ⟨"user", s, [], ""⟩ :: msgs.drop i

/-- Concrete five-message transcript for the C2 counterexample: user
messages sit at indices 0, 2 and 4, the candidate index is 3. -/
def msgsC2 : List Msg :=
  [⟨"user", "用户指令: a", [], ""⟩, ⟨"assistant", "ok", [], ""⟩,
   ⟨"user", "hi", [], ""⟩, ⟨"assistant", "b", [], ""⟩, ⟨"user", "c", [], ""⟩]

/-- Concrete transcript for the C2 witness: an assistant/tool pair sits
below the cut, a user message at the cut index 3. -/
def msgsW : List Msg :=
  [⟨"user", "用户指令: a", [], ""⟩, ⟨"assistant", "", [⟨"t1", "press"⟩], ""⟩,
   ⟨"tool", "done", [], "t1"⟩, ⟨"user", "x", [], ""⟩, ⟨"assistant", "finished", [], ""⟩]

/-! ## Accessibility snapshot engine (C3, C4)

Embedding of `SnapshotParser` (src/lib/snapshot.py).  The claims start from
parsed trees, so the page is abstracted as the tree `_take_snapshot` yields
(`none` for a blank page).  Node dicts become `ATree`; the `children` list
is the mutual `AForest` so recursion stays structural.  Fields the walker and
flattener never read (`pressed`, `disabled`) are omitted. -/

mutual

inductive ATree where
  | mk (role name value : String) (checked expanded selected : Option Bool)
       (level : Option Int) (children : AForest)

inductive AForest where
  | nil
  | cons (t : ATree) (ts : AForest)

end

/-- `INTERACTIVE_ROLES` (src/lib/snapshot.py lines 23-28). -/
def interactiveRoles : List String :=
  ["button", "textbox", "combobox", "checkbox", "radio",
   "link", "menuitem", "tab", "slider", "switch",
   "option", "searchbox", "spinbutton", "menuitemcheckbox",
   "menuitemradio", "treeitem"]

/-- `SKIP_ROLES` (src/lib/snapshot.py lines 31-34). -/
def skipRoles : List String :=
  ["none", "presentation", "generic", "paragraph", "LineBreak", "InlineTextBox"]

structure RefInfo where
  role : String
  name : String
  value : String
  nth : Nat
  deriving DecidableEq, Repr

/-- The walker's mutable state: `_counter`, `_ref_map` (an insertion-ordered
list over distinct integer keys) and `_role_name_count` (a dict with default
0, modelled as a total function). -/
structure WalkSt where
  counter : Nat
  refMap : List (Nat × RefInfo)
  rnCount : String × String → Nat

def initWalkSt : WalkSt := ⟨0, [], fun _ => 0⟩

/-- Update of the `(role, name)` occurrence dict (`self._role_name_count[rn_key]
= nth + 1`; a dict with default 0 is a total function). -/
def bump (f : String × String → Nat) (k : String × String) : String × String → Nat :=
  fun k2 => if k2 = k then f k + 1 else f k2

/-- The ref-assignment step of `_walk` (src/lib/snapshot.py lines 380-391):
for an interactive role, bump the counter, record the `nth` occurrence index
for `(role, name)`, emit the `[N]` part and extend the ref map. -/
def emitSt (role name value : String) (st : WalkSt) : List String × WalkSt :=
  if role ∈ interactiveRoles then
    (["[" ++ toString (st.counter + 1) ++ "]"],
     ⟨st.counter + 1,
      st.refMap ++ [(st.counter + 1, ⟨role, name, value, st.rnCount (role, name)⟩)],
      bump st.rnCount (role, name)⟩)
  else ([], st)

/-- The non-ref tokens of a rendered line (src/lib/snapshot.py lines
393-406): role, quoted name, `level=`, `value=`, `checked=`, `expanded=`,
`(selected)`. -/
def nodeParts (role name value : String) (checked expanded selected : Option Bool)
    (level : Option Int) : List String :=
  [role]
  ++ (if name ≠ "" then ["\"" ++ name ++ "\""] else [])
  ++ (match level with
    | some l => ["level=" ++ toString l]
    | none => [])
  ++ (if value ≠ "" then ["value=\"" ++ value ++ "\""] else [])
  ++ (match checked with
    | some b => ["checked=" ++ (if b then "yes" else "no")]
    | none => [])
  ++ (match expanded with
    | some b => ["expanded=" ++ (if b then "yes" else "no")]
    | none => [])
  ++ (if selected = some true then ["(selected)"] else [])

mutual

/-- `SnapshotParser._walk` (src/lib/snapshot.py lines 351-413): skip
decorative unnamed leaves, flatten decorative unnamed containers, otherwise
emit one indented line (ref part first) and recurse one level deeper. -/
def walkTree : ATree → Nat → WalkSt → List String × WalkSt
  | ATree.mk role name value checked expanded selected level children, depth, st =>
    if role ∈ skipRoles ∧ name = "" then
      match children with
      | AForest.nil => ([], st)
      | AForest.cons t ts => walkForest (AForest.cons t ts) depth st
    else
      let es := emitSt role name value st
      let line := String.mk (List.replicate (2 * depth) ' ')
        ++ pyJoin " " (es.1 ++ nodeParts role name value checked expanded selected level)
      let rest := walkForest children (depth + 1) es.2
      (line :: rest.1, rest.2)

def walkForest : AForest → Nat → WalkSt → List String × WalkSt
  | AForest.nil, _, st => ([], st)
  | AForest.cons t ts, depth, st =>
    let r1 := walkTree t depth st
    let r2 := walkForest ts depth r1.2
    (r1.1 ++ r2.1, r2.2)

end

/-- Flattened node record stored by `_flatten_recursive`. -/
structure ENode where
  role : String
  name : String
  value : String
  checked : Option Bool
  expanded : Option Bool
  selected : Option Bool
  deriving DecidableEq, Repr

/-- Flattening key: `(role, name)` is index 0, collisions get `(role, name,
k)` for `k ≥ 2`, exactly as the source builds tuple keys. -/
abbrev EKey := String × String × Nat

def lookupE (l : List (EKey × ENode)) (k : EKey) : Option ENode :=
  match l.find? (fun p => p.1 = k) with
  | some p => some p.2
  | none => none

def keyFree (acc : List (EKey × ENode)) (k : EKey) : Bool :=
  (lookupE acc k).isNone

/-- The `i = 2; while (role, name, i) in result: i += 1` collision scan; the
fuel only bounds the loop and `acc.length + 1` steps always suffice because
the occupied indices are finitely many. -/
def freshIdx (acc : List (EKey × ENode)) (role name : String) : Nat → Nat → Nat
  | 0, i => i
  | fuel + 1, i => if keyFree acc (role, name, i) then i else freshIdx acc role name fuel (i + 1)

mutual

/-- `SnapshotParser._flatten_recursive` (src/lib/snapshot.py lines 421-444),
with the result dict as an insertion-ordered association list. -/
def flattenTree : ATree → List (EKey × ENode) → List (EKey × ENode)
  | ATree.mk role name value checked expanded selected _level children, acc =>
    let acc :=
      if role ∉ skipRoles ∧ (role ≠ "" ∨ name ≠ "") then
        let key : EKey :=
          if keyFree acc (role, name, 0) then (role, name, 0)
          else (role, name, freshIdx acc role name (acc.length + 1) 2)
        acc ++ [(key, ⟨role, name, value, checked, expanded, selected⟩)]
      else acc
    flattenForest children acc

def flattenForest : AForest → List (EKey × ENode) → List (EKey × ENode)
  | AForest.nil, acc => acc
  | AForest.cons t ts, acc => flattenForest ts (flattenTree t acc)

end

/-- Does a common element count as modified (`value|checked|expanded|selected`
differ)? -/
def modDiffers (o n : ENode) : Bool :=
  o.value ≠ n.value ∨ o.checked ≠ n.checked ∨ o.expanded ≠ n.expanded ∨ o.selected ≠ n.selected

structure ModEntry where
  element : ENode
  oldValue : String
  newValue : String
  oldChecked : Option Bool
  newChecked : Option Bool
  deriving DecidableEq, Repr

structure DiffRes where
  added : List ENode
  removed : List ENode
  modified : List ModEntry
  unchangedCount : Nat
  deriving DecidableEq, Repr

/-- `SnapshotParser._semantic_diff` (src/lib/snapshot.py lines 446-490).
The source iterates Python sets of keys; the embedding fixes the iteration
order to insertion order (`added` in new-list order, `removed` and the
common keys in old-list order) — the claims only depend on the counts,
which are order-independent. -/
def semanticDiff (old new : List (EKey × ENode)) : DiffRes :=
  let added := (new.filter (fun p => (lookupE old p.1).isNone)).map Prod.snd
  let removed := (old.filter (fun p => (lookupE new p.1).isNone)).map Prod.snd
  let common := old.filterMap (fun p =>
    match lookupE new p.1 with
    | some ne => some (p.2, ne)
    | none => none)
  let modified := common.filterMap (fun pr =>
    if modDiffers pr.1 pr.2 then
      some (ModEntry.mk pr.2 pr.1.value pr.2.value pr.1.checked pr.2.checked)
    else none)
  let unchangedCount := (common.filter (fun pr => ¬ modDiffers pr.1 pr.2)).length
  ⟨added, removed, modified, unchangedCount⟩

/-- Python `str()` of an optional boolean (`None`/`True`/`False`). -/
def pyOptBoolRepr : Option Bool → String
  | none => "None"
  | some true => "True"
  | some false => "False"

/-- `SnapshotParser._format_diff` (src/lib/snapshot.py lines 492-523). -/
def formatDiff (d : DiffRes) : String :=
  let lines : List String :=
    (if d.modified.isEmpty then [] else
      d.modified.filterMap (fun m =>
        let desc := m.element.role ++ " \"" ++ m.element.name ++ "\""
        let changes :=
          (if m.oldValue ≠ m.newValue then
            ["value: \"" ++ m.oldValue ++ "\" -> \"" ++ m.newValue ++ "\""] else [])
          ++ (if m.oldChecked ≠ m.newChecked then
            ["checked: " ++ pyOptBoolRepr m.oldChecked ++ " -> " ++ pyOptBoolRepr m.newChecked]
            else [])
        if changes.isEmpty then none
        else some ("[修改] " ++ desc ++ ": " ++ pyJoin "; " changes)))
    ++ (if d.added.isEmpty then [] else
      ("[新增] " ++ toString d.added.length ++ " 个元素:")
        :: d.added.map (fun e =>
          let desc := "  " ++ e.role ++ " \"" ++ e.name ++ "\""
          if e.value ≠ "" then desc ++ " value=\"" ++ e.value ++ "\"" else desc))
    ++ (if d.removed.isEmpty then [] else
      ("[移除] " ++ toString d.removed.length ++ " 个元素:")
        :: d.removed.map (fun e => "  " ++ e.role ++ " \"" ++ e.name ++ "\""))
    ++ ["[未变] " ++ toString d.unchangedCount ++ " 个元素"]
  pyJoin "\n" lines

/-- `SnapshotParser` state across observations: the diff threshold (a float
in the source, modelled as an exact rational), the walker state of the most
recent rendering, and the `_last_*` trio. -/
structure SPState where
  diffThreshold : ℚ
  counter : Nat
  refMap : List (Nat × RefInfo)
  rnCount : String × String → Nat
  lastTree : Option ATree
  lastText : String
  lastElements : Option (List (EKey × ENode))

def initSPState (θ : ℚ) : SPState :=
  ⟨θ, 0, [], fun _ => 0, none, "", none⟩

/-- The rendered text of one tree (fresh ref numbering, as `get_observation`
reassigns refs on every call). -/
def renderText (t : ATree) : String :=
  pyJoin "\n" (walkTree t 0 initWalkSt).1

/-- `SnapshotParser.get_observation` (src/lib/snapshot.py lines 74-130) on
the tree the page currently yields (`none` = blank page). -/
def getObservation (st : SPState) (treeOpt : Option ATree) : String × SPState :=
  match treeOpt with
  | none => ("[页面快照]\n(空白页面)", st)
  | some tree =>
    let (lines, wst) := walkTree tree 0 initWalkSt
    let currentText := pyJoin "\n" lines
    let currentElements := flattenTree tree []
    match st.lastElements with
    | none =>
      ("[页面快照]\n" ++ currentText,
       ⟨st.diffThreshold, wst.counter, wst.refMap, wst.rnCount,
        some tree, currentText, some currentElements⟩)
    | some old =>
      let d := semanticDiff old currentElements
      let st2 : SPState :=
        ⟨st.diffThreshold, wst.counter, wst.refMap, wst.rnCount,
         some tree, currentText, some currentElements⟩
      let totalChanges := d.added.length + d.removed.length + d.modified.length
      if totalChanges = 0 then ("[页面无变化]", st2)
      else
        let totalElements := max (totalChanges + d.unchangedCount) 1
        if st.diffThreshold ≤ (totalChanges : ℚ) / (totalElements : ℚ) then
          ("[页面快照]\n" ++ currentText, st2)
        else
          ("[页面变化]\n" ++ formatDiff d ++ "\n\n[当前快照]\n" ++ currentText, st2)

/-- Locator shapes producible by `ref_to_locator` (Playwright calls are
abstracted by the page count oracle `countFn role name exact`). -/
inductive PWLocator where
  | roleName (role name : String) (exact : Bool) (nth : Option Nat)
  | roleOnly (role : String) (nth : Nat)
  deriving DecidableEq, Repr

/-- `SnapshotParser.ref_to_locator` (src/lib/snapshot.py lines 150-178);
`none` is the `ValueError` on an unknown ref. -/
def refToLocator (countFn : String → String → Bool → Nat)
    (refMap : List (Nat × RefInfo)) (refId : Nat) : Option PWLocator :=
  match refMap.find? (fun p => p.1 = refId) with
  | none => none
  | some p =>
    let info := p.2
    if info.name ≠ "" then
      let c1 := countFn info.role info.name true
      if c1 = 0 then
        let c2 := countFn info.role info.name false
        some (PWLocator.roleName info.role info.name false (if c2 > 1 then some info.nth else none))
      else
        some (PWLocator.roleName info.role info.name true (if c1 > 1 then some info.nth else none))
    else some (PWLocator.roleOnly info.role info.nth)

/-! ### Specification-side view of ref assignment (C4) -/

mutual

/-- The interactive nodes of a tree in pre-order, with their values. -/
def interTree : ATree → List (String × String × String)
  | ATree.mk role name value _ _ _ _ children =>
    (if role ∈ interactiveRoles then [(role, name, value)] else []) ++ interForest children

def interForest : AForest → List (String × String × String)
  | AForest.nil => []
  | AForest.cons t ts => interTree t ++ interForest ts

end

/-- Sequential construction of the ref table from an interactive pre-order
list, starting at counter `c` with occurrence dict `f`. -/
def extendRefs (c : Nat) (f : String × String → Nat) :
    List (String × String × String) → List (Nat × RefInfo)
  | [] => []
  | (r, n, v) :: rest => (c + 1, ⟨r, n, v, f (r, n)⟩) :: extendRefs (c + 1) (bump f (r, n)) rest

/-- Occurrence dict after consuming a whole interactive list. -/
def bumpAll (f : String × String → Nat) : List (String × String × String) → (String × String → Nat)
  | [] => f
  | (r, n, _) :: rest => bumpAll (bump f (r, n)) rest

/-- Same `(role, name)` test between interactive entries. -/
def sameRN (r n : String) (e : String × String × String) : Bool :=
  e.1 = r ∧ e.2.1 = n

/-- The positional description of one ref-table entry: the `i`-th
interactive node gets ref `c + i + 1` and an `nth` of the base dict value
plus the number of earlier entries sharing its `(role, name)`. -/
def refSpecEntry (c : Nat) (f : String × String → Nat)
    (l : List (String × String × String)) (i : Nat) : Nat × RefInfo :=
  (c + i + 1,
   ⟨(l.getD i default).1, (l.getD i default).2.1, (l.getD i default).2.2,
    f ((l.getD i default).1, (l.getD i default).2.1)
      + ((l.take i).filter (sameRN (l.getD i default).1 (l.getD i default).2.1)).length⟩)

/-- The claimed shape of the ref table: the `i`-th interactive node of the
pre-order list gets ref `i + 1` (a dense `1..N`), with `nth` the number of
earlier interactive nodes sharing its `(role, name)`. -/
def refSpec (l : List (String × String × String)) : List (Nat × RefInfo) :=
  (List.range l.length).map (refSpecEntry 0 (fun _ => 0) l)

/-- The concrete tree of the C4 scenario: a `WebArea` whose pre-order
interactive list is `[button "OK", textbox "User", button "OK"]`. -/
def treeOK : ATree :=
  ATree.mk "WebArea" "" "" none none none none
    (AForest.cons (ATree.mk "button" "OK" "" none none none none AForest.nil)
      (AForest.cons (ATree.mk "textbox" "User" "" none none none none AForest.nil)
        (AForest.cons (ATree.mk "button" "OK" "" none none none none AForest.nil)
          AForest.nil)))

/-- The page-count oracle of the C4 scenario: two `button "OK"` elements and
one `textbox "User"`. -/
def countOK (role name : String) (_exact : Bool) : Nat :=
  if role = "button" ∧ name = "OK" then 2
  else if role = "textbox" ∧ name = "User" then 1
  else 0

/-- The semantic diff between two consecutive observations (C3). -/
def obsDiff (t1 t2 : ATree) : DiffRes :=
  semanticDiff (flattenTree t1 []) (flattenTree t2 [])

/-- `total_changes` of a diff result. -/
def changesOf (d : DiffRes) : Nat :=
  d.added.length + d.removed.length + d.modified.length

/-- C3 witness page: a `WebArea` holding one `textbox "User"`. -/
def tW1 : ATree :=
  ATree.mk "WebArea" "" "" none none none none
    (AForest.cons (ATree.mk "textbox" "User" "" none none none none AForest.nil) AForest.nil)

/-- The same page after the textbox value changed to `bob`. -/
def tW2 : ATree :=
  ATree.mk "WebArea" "" "" none none none none
    (AForest.cons (ATree.mk "textbox" "User" "bob" none none none none AForest.nil) AForest.nil)

/-! # Theorems -/

/-- C1: constructing `CassiaAgent` raises `TypeError` for every page handle
and config dictionary, because the constructor passes the keyword `max_lines`
which `SnapshotParser.__init__` does not accept. -/
theorem cassiaAgentInit_typeError (config : AgentConfig) :
    cassiaAgentInit config = Except.error PyErr.typeError := by
  rfl

theorem pyDrop_len_self (s : String) : pyDrop s s.data.length = "" := by
  unfold pyDrop
  rw [List.drop_length]

/-- C9: extraction is idempotent when no new output has arrived: for every
raw transcript and every command, `extract_command_output(raw, raw, cmd)`
returns the empty string. -/
theorem extractCommandOutput_self (raw cmd : String) :
    extractCommandOutput raw raw cmd = "" := by
  unfold extractCommandOutput
  rw [pyDrop_len_self]
  have hsplit : pySplit "" "\n" = [""] := rfl
  dsimp only []
  rw [hsplit]
  by_cases h : pyIn (pyStrip cmd) ""
  · simp only [h, if_true]
    rfl
  · simp only [h, if_false]
    rfl

/-- C8: the captured message `2:4097:42["data","hello"]` is decoded by the
length-prefixed Engine.IO v3 framing into the packets `40` and
`42["data","hello"]`; only the latter is a data event, so the payload
`hello` is appended once to the raw buffer and fed once to the virtual
terminal, with no other feeds. -/
theorem parseMessage_engineIOv3_hello :
    parseMessage initTermState "2:4097:42[\"data\",\"hello\"]" =
      { rawBuffer := "hello", feeds := ["hello"], cols := 80, rows := 24 } := by
  rfl

/-- C10: whenever the wait loop returns a raw text (instead of timing out or
raising on a lost connection), that text contains strictly more occurrences
of the target than the baseline does; in particular it never returns
normally while the count is not above the baseline count. -/
theorem waitForNewTerminalText_strict (target baseline raw : String) (polls : List Poll)
    (h : waitForNewTerminalText target baseline polls = WaitResult.found raw) :
    pyCount raw target > pyCount baseline target := by
  unfold waitForNewTerminalText at h
  generalize hlt : (none : Option Int) = lastT at h
  generalize hll : 0 = lastLen at h
  clear hlt hll
  induction polls generalizing lastT lastLen with
  | nil => simp [waitNewLoop] at h
  | cons p rest ih =>
    rw [waitNewLoop.eq_def] at h
    dsimp only [] at h
    split at h
    next hc => cases h; exact hc
    next hc =>
      split at h
      next hd =>
        split at h
        next hl => exact ih _ _ h
        next hl =>
          split at h
          next => exact ih _ _ h
          next t =>
            split at h
            next => simp at h
            next => exact ih _ _ h
      next hd => exact ih _ _ h

/-- Witness for C10 at a concrete schedule: baseline `a#`, target `#`;
the first poll still has one occurrence, the second has two and is
returned. -/
theorem waitForNewTerminalText_strict_witness :
    pyCount "a#b#" "#" > pyCount "a#" "#" :=
  waitForNewTerminalText_strict "#" "a#" "a#b#"
    [⟨"a#", false, 0⟩, ⟨"a#b#", false, 1⟩] (by rfl)

/-! ### Helper lemmas on strings and the cache state -/

theorem startsWithL_self_append (l m : List Char) : startsWithL l (l ++ m) = true := by
  induction l with
  | nil => rfl
  | cons c cs ih => simp [startsWithL, ih]

theorem jsonEscChar_a : jsonEscChar 'a' = ['a'] := by rfl

theorem jsonEsc_replicate_a (n : Nat) :
    jsonEsc (List.replicate n 'a') = List.replicate n 'a' := by
  induction n with
  | zero => rfl
  | succ k ih =>
    simp only [List.replicate_succ, jsonEsc, List.flatMap_cons, jsonEscChar_a]
    simp only [jsonEsc] at ih
    rw [ih]
    rfl

theorem jsonDumps_str (s : String) : jsonDumps (PyJson.str s) 0 = jsonQuote s := by
  simp [jsonDumps]

theorem manyA_dumps_len (n : Nat) :
    (jsonDumps (PyJson.str (manyA n)) 0).data.length = n + 2 := by
  rw [jsonDumps_str]
  simp only [jsonQuote, manyA, String.data_append, List.length_append]
  have : (String.mk (jsonEsc (String.mk (List.replicate n 'a')).data)).data.length = n := by
    show (jsonEsc (List.replicate n 'a')).length = n
    rw [jsonEsc_replicate_a, List.length_replicate]
  simp only [this]
  simp
  omega

theorem pyTake_data_length (s : String) (n : Nat) :
    (pyTake s n).data.length = min n s.data.length := by
  simp [pyTake]

theorem pyStartsWith_of_eq_append (p s q : String) (h : s = p ++ q) :
    pyStartsWith p s = true := by
  subst h
  unfold pyStartsWith
  rw [String.data_append]
  exact startsWithL_self_append _ _

theorem startsWithL_cancel (x y z : List Char) :
    startsWithL (x ++ y) (x ++ z) = startsWithL y z := by
  induction x with
  | nil => rfl
  | cons c cs ih => simp [startsWithL, ih]

/-- The `共 N 条数据` banner is a prefix of the cache summary text. -/
theorem bannerPrefix (T ST : String) :
    pyStartsWith ("共 " ++ T ++ " 条数据，数据量较大，已缓存到本地。")
      ("共 " ++ T ++ " 条数据，数据量较大，已缓存到本地。" ++ "\n\n前 5 条样例:\n" ++ ST
        ++ "\n\n请使用 search_data(keyword) 工具按关键词搜索缓存数据，只返回匹配的条目。支持多关键词(逗号分隔)。") = true := by
  unfold pyStartsWith
  simp only [String.data_append, List.append_assoc]
  rw [startsWithL_cancel, startsWithL_cancel]
  exact startsWithL_self_append _ _

/-- Under the cache invariant, `cleanup` leaves no cache file. -/
theorem execCleanup_fs_nil (s : ExecSt) (hinv : execInv s) : (execCleanup s).fs = [] := by
  obtain ⟨hnd, hall⟩ := hinv
  have hcases : s.fs = [] ∨ ∃ q, s.lastDataFile = some q ∧ s.fs = [q] := by
    cases hfs : s.fs with
    | nil => left; rfl
    | cons a t =>
      right
      refine ⟨a, hall a (by rw [hfs]; simp), ?_⟩
      cases t with
      | nil => rfl
      | cons b t2 =>
        exfalso
        have hb := hall b (by rw [hfs]; simp)
        have ha := hall a (by rw [hfs]; simp)
        rw [ha] at hb
        have hab : a = b := by injection hb
        rw [hfs, hab] at hnd
        simp at hnd
  rcases hcases with hfs | ⟨q, hq, hfs⟩
  · unfold execCleanup
    cases hlf : s.lastDataFile with
    | none => exact hfs
    | some p => simp [hfs, hlf]
  · unfold execCleanup
    rw [hq]
    simp [hfs, List.erase]

/-- Shared computation for the non-diverted over-15000 branch of
`ac_api_call`. -/
theorem acApiHandleJson_over15k (s : ExecSt) (fresh : String) (mi : Nat) (parsed : PyJson)
    (hdiv : divertTarget parsed mi = none)
    (hlen : 15000 < (jsonDumps parsed 0).data.length) :
    acApiHandleJson s fresh mi parsed =
      ("(JSON 响应过长，共 " ++ toString (jsonDumps parsed 0).data.length
          ++ " 字符，已截断)\n\n" ++ pyTake (jsonDumps parsed 0) 8000 ++ "\n... (已截断)",
        s) := by
  unfold acApiHandleJson
  rw [hdiv]
  unfold acApiFormatJson
  rw [if_pos (by omega)]

/-! ### C5: the 15 KB "truncation" actually keeps only 8000 characters -/

/-- C5 counterexample: take the JSON string of 16000 letters `a` (16002
characters once quoted, not diverted by any cache rule).  The returned text
is about 8038 characters long, so it cannot embed the first 15000 characters
of the dump anywhere: the claim is false. -/
theorem acApiTruncAt15kClaim_false : ¬ acApiTruncAt15kClaim := by
  intro hcl
  obtain ⟨pre, post, heq⟩ :=
    hcl ⟨none, 0, []⟩ "/tmp/cassia_data_0.json" 100 (PyJson.str (manyA 16000)) rfl
      (by rw [manyA_dumps_len]; omega)
  rw [(acApiHandleJson_over15k ⟨none, 0, []⟩ "/tmp/cassia_data_0.json" 100
      (PyJson.str (manyA 16000)) rfl (by rw [manyA_dumps_len]; omega))] at heq
  have hfl : (jsonDumps (PyJson.str (manyA 16000)) 0).data.length = 16002 := by
    rw [manyA_dumps_len]
  have hlenEq := congrArg (fun t => t.data.length) heq
  simp only [String.data_append, List.length_append, pyTake_data_length, hfl] at hlenEq
  have ha : ("(JSON 响应过长，共 " : String).data.length = 13 := by decide
  have hb : (" 字符，已截断)\n\n" : String).data.length = 10 := by decide
  have hc : ("\n... (已截断)" : String).data.length = 10 := by decide
  have hd : ((toString (16002 : Nat)) : String).data.length = 5 := by decide
  have hm1 : min 8000 16002 = 8000 := by norm_num
  have hm2 : min 15000 16002 = 15000 := by norm_num
  simp only [ha, hb, hc, hd, hm1, hm2] at hlenEq
  omega

/-- C5 amended: when a successful JSON response is not diverted into the
large-response cache and its pretty-printed dump exceeds 15000 characters,
the tool returns the over-length header followed by the first 8000 (not
15000) characters of the dump and the literal marker `... (已截断)`; the
executor state is unchanged. -/
theorem acApiCall_over15k_keeps8000 (s : ExecSt) (fresh : String) (mi : Nat) (parsed : PyJson)
    (hdiv : divertTarget parsed mi = none)
    (hlen : 15000 < (jsonDumps parsed 0).data.length) :
    (acApiHandleJson s fresh mi parsed).1 =
      "(JSON 响应过长，共 " ++ toString (jsonDumps parsed 0).data.length
        ++ " 字符，已截断)\n\n" ++ pyTake (jsonDumps parsed 0) 8000 ++ "\n... (已截断)"
    ∧ (acApiHandleJson s fresh mi parsed).2 = s := by
  rw [acApiHandleJson_over15k s fresh mi parsed hdiv hlen]
  exact ⟨rfl, rfl⟩

/-- Witness for the amended C5 at the 16000-letter payload. -/
theorem acApiCall_over15k_keeps8000_witness :
    (acApiHandleJson ⟨none, 0, []⟩ "/tmp/cassia_data_0.json" 100
        (PyJson.str (manyA 16000))).1 =
      "(JSON 响应过长，共 " ++ toString (jsonDumps (PyJson.str (manyA 16000)) 0).data.length
        ++ " 字符，已截断)\n\n" ++ pyTake (jsonDumps (PyJson.str (manyA 16000)) 0) 8000
        ++ "\n... (已截断)" :=
  (acApiCall_over15k_keeps8000 ⟨none, 0, []⟩ "/tmp/cassia_data_0.json" 100
    (PyJson.str (manyA 16000)) rfl (by rw [manyA_dumps_len]; omega)).1

/-! ### C6: large array responses go to a single cache file -/

/-- C6: when `ac_api_call` receives a successful JSON array longer than
`max_response_items` (under the cache invariant, with `mkstemp` yielding a
genuinely fresh path), the array lands in exactly one on-disk cache file;
the previously recorded file, if it was on disk, is gone; the invariant is
maintained and a further `cleanup()` leaves no file; and the returned text
is the `共 N 条数据` banner followed by the first-five-entries sample block. -/
theorem acApiCall_largeArray_cache (s : ExecSt) (fresh : String) (mi : Nat)
    (data : List PyJson) (hinv : execInv s) (hfresh : fresh ∉ s.fs)
    (hlen : mi < data.length) :
    (acApiHandleJson s fresh mi (PyJson.arr data)).2.fs = [fresh]
    ∧ execInv (acApiHandleJson s fresh mi (PyJson.arr data)).2
    ∧ (∀ p, s.lastDataFile = some p → p ∈ s.fs →
        p ∉ (acApiHandleJson s fresh mi (PyJson.arr data)).2.fs)
    ∧ (execCleanup (acApiHandleJson s fresh mi (PyJson.arr data)).2).fs = []
    ∧ (acApiHandleJson s fresh mi (PyJson.arr data)).1 =
        "共 " ++ toString data.length ++ " 条数据，数据量较大，已缓存到本地。"
          ++ "\n\n前 5 条样例:\n" ++ sampleText data
          ++ "\n\n请使用 search_data(keyword) 工具按关键词搜索缓存数据，只返回匹配的条目。支持多关键词(逗号分隔)。"
    ∧ pyStartsWith ("共 " ++ toString data.length ++ " 条数据，数据量较大，已缓存到本地。")
        (acApiHandleJson s fresh mi (PyJson.arr data)).1 = true := by
  have hdiv : divertTarget (PyJson.arr data) mi = some data := by
    simp [divertTarget, hlen]
  have hstep : acApiHandleJson s fresh mi (PyJson.arr data) = cacheLargeResponse s fresh data := by
    unfold acApiHandleJson
    rw [hdiv]
  have hcl : (execCleanup s).fs = [] := execCleanup_fs_nil s hinv
  rw [hstep]
  unfold cacheLargeResponse
  dsimp only []
  rw [hcl]
  refine ⟨rfl, ⟨by simp, ?_⟩, ?_, ?_, ?_, ?_⟩
  · intro p hp
    simp only [List.nil_append, List.mem_singleton] at hp
    rw [hp]
  · intro p hpl hpfs
    simp only [List.nil_append, List.mem_singleton]
    intro hpf
    rw [hpf] at hpfs
    exact hfresh hpfs
  · unfold execCleanup
    simp [List.erase]
  · rfl
  · exact bannerPrefix (toString data.length) (sampleText data)

/-- Witness for C6: 250 numeric entries against `max_response_items = 100`
from a pristine executor. -/
theorem acApiCall_largeArray_cache_witness :
    (acApiHandleJson ⟨none, 0, []⟩ "/tmp/cassia_data_1.json" 100
        (PyJson.arr (List.replicate 250 (PyJson.num 7)))).2.fs = ["/tmp/cassia_data_1.json"]
    ∧ pyStartsWith ("共 " ++ toString (List.replicate 250 (PyJson.num 7)).length
          ++ " 条数据，数据量较大，已缓存到本地。")
        (acApiHandleJson ⟨none, 0, []⟩ "/tmp/cassia_data_1.json" 100
          (PyJson.arr (List.replicate 250 (PyJson.num 7)))).1 = true := by
  have h := acApiCall_largeArray_cache ⟨none, 0, []⟩ "/tmp/cassia_data_1.json" 100
    (List.replicate 250 (PyJson.num 7)) ⟨List.nodup_nil, by intro p hp; cases hp⟩
    (by intro hp; cases hp) (by rw [List.length_replicate]; omega)
  exact ⟨h.1, h.2.2.2.2.2⟩

/-! ### C7: non-2xx on `/ap` is reported as "no gateways", not APIError -/

/-- C7 counterexample: `fetch_gateways` catches the in-page `HTTP 500` error
and returns `[]`, so the tool answers with the very same `未找到网关`
success report that a genuine empty gateway list produces — there is no
APIError for the model to see. -/
theorem fetchGatewaysAPIErrorClaim_false : ¬ fetchGatewaysAPIErrorClaim := by
  intro hcl
  exact hcl ⟨500, "Internal Server Error"⟩ "all" (by rfl) (by rfl)

/-- C7 amended: for every non-2xx AC response, the `fetch_gateways` tool
returns the "no gateways found" message (with the status-dependent label),
indistinguishable from a successful empty list. -/
theorem toolFetchGateways_non2xx (r : FetchResult) (status : String)
    (h : respOk r = false) :
    toolFetchGateways r status =
      "未找到" ++ (if status = "online" then "在线"
        else if status = "offline" then "离线" else "") ++ "网关" := by
  have hgw : fetchGateways r = [] := by
    unfold fetchGateways fetchGatewaysEval
    rw [h]
    rfl
  unfold toolFetchGateways
  rw [hgw]
  by_cases h1 : status = "online"
  · subst h1; rfl
  · by_cases h2 : status = "offline"
    · subst h2; rfl
    · by_cases h3 : status = "all"
      · subst h3; rfl
      · dsimp only []
        rw [show (if status = "all" ∨ status = "online" ∨ status = "offline"
              then status else "all") = "all" from if_neg (by simp [h1, h2, h3])]
        rw [if_neg h1, if_neg h2]
        rfl

/-- Witness for the amended C7 at HTTP 500 with `status="online"`. -/
theorem toolFetchGateways_non2xx_witness :
    toolFetchGateways ⟨500, "Server Error"⟩ "online" = "未找到在线网关" := by
  have h := toolFetchGateways_non2xx ⟨500, "Server Error"⟩ "online" (by rfl)
  exact h

/-! ### C2: compression helpers -/

theorem weakOfStrong (msgs : List Msg) (hp : StrongPaired msgs) : WeakPaired msgs := by
  intro k hk ht
  obtain ⟨j, h1, h2, h3, _⟩ := hp k hk ht
  exact ⟨j, h1, h2, h3⟩

theorem getD_drop (l : List Msg) (i j : Nat) :
    (l.drop i).getD j default = l.getD (i + j) default := by
  simp [List.getD_eq_getElem?_getD, List.getElem?_drop]

/-- The downward scan finds the largest `user` index at or below its start. -/
theorem scanUserDown_eq_largest (msgs : List Msg) (c : Nat) :
    scanUserDown msgs c = (largestUserIdxLE msgs c).getD 0 := by
  induction c with
  | zero =>
    unfold largestUserIdxLE
    rw [show (List.range 1).reverse = [0] from rfl]
    by_cases h : (msgs.getD 0 default).role = "user"
    · rw [List.find?_cons_of_pos _ (by rw [decide_eq_true_eq]; exact h)]
      rfl
    · rw [List.find?_cons_of_neg _ (by simpa using h)]
      rfl
  | succ i ih =>
    unfold largestUserIdxLE
    rw [List.range_succ, List.reverse_append, List.reverse_singleton, List.singleton_append]
    by_cases h : (msgs.getD (i + 1) default).role = "user"
    · rw [List.find?_cons_of_pos _ (by rw [decide_eq_true_eq]; exact h)]
      simp only [Option.getD_some]
      simp only [scanUserDown]
      rw [if_pos h]
    · rw [List.find?_cons_of_neg _ (by simpa using h)]
      simp only [scanUserDown]
      rw [if_neg h]
      unfold largestUserIdxLE at ih
      exact ih

/-- A non-zero result of the downward scan points at a `user` message. -/
theorem scanUserDown_role (msgs : List Msg) (c : Nat)
    (h : scanUserDown msgs c ≠ 0) :
    (msgs.getD (scanUserDown msgs c) default).role = "user" := by
  induction c with
  | zero => exact absurd rfl h
  | succ i ih =>
    by_cases hu : (msgs.getD (i + 1) default).role = "user"
    · rw [show scanUserDown msgs (i + 1) = i + 1 from by
        simp only [scanUserDown]; rw [if_pos hu]]
      exact hu
    · rw [show scanUserDown msgs (i + 1) = scanUserDown msgs i from by
        simp only [scanUserDown]; rw [if_neg hu]] at h ⊢
      exact ih h

/-- Dropping the prefix before a `user` message preserves tool-call pairing:
under the strong invariant the declaring assistant of any retained tool
message cannot sit before the cut, because only tool messages may separate
the two and the cut message is a `user` one. -/
theorem dropPaired (msgs : List Msg) (i : Nat) (hp : StrongPaired msgs)
    (hu : (msgs.getD i default).role = "user") : WeakPaired (msgs.drop i) := by
  intro k hk ht
  have hk' : i + k < msgs.length := by
    rw [List.length_drop] at hk
    omega
  rw [getD_drop] at ht
  obtain ⟨j, hj, hasst, hmem, hbetween⟩ := hp (i + k) hk' ht
  have hik : i < i + k := by
    rcases Nat.eq_zero_or_pos k with hk0 | hk0
    · rw [hk0, Nat.add_zero] at ht
      rw [ht] at hu
      exact absurd hu (by decide)
    · omega
  have hij : i ≤ j := by
    by_contra hcon
    push_neg at hcon
    have := hbetween i hcon hik
    rw [this] at hu
    exact absurd hu (by decide)
  refine ⟨j - i, by omega, ?_, ?_⟩
  · rw [getD_drop, show i + (j - i) = j from by omega]
    exact hasst
  · rw [getD_drop, getD_drop, show i + (j - i) = j from by omega]
    exact hmem

/-- Prepending a `user` message preserves the pairing property. -/
theorem consUserPaired (m : Msg) (msgs : List Msg) (hrole : m.role = "user")
    (h : WeakPaired msgs) : WeakPaired (m :: msgs) := by
  intro k hk ht
  cases k with
  | zero =>
    rw [List.getD_cons_zero] at ht
    rw [ht] at hrole
    exact absurd hrole (by decide)
  | succ k' =>
    have hk' : k' < msgs.length := by
      rw [List.length_cons] at hk
      omega
    rw [List.getD_cons_succ] at ht
    obtain ⟨j, hj, hasst, hmem⟩ := h k' hk' ht
    refine ⟨j + 1, by omega, ?_, ?_⟩
    · rw [List.getD_cons_succ]
      exact hasst
    · rw [List.getD_cons_succ, List.getD_cons_succ]
      exact hmem

/-! ### C2: the cut search goes downward, not upward -/

/-- C2 counterexample: in the five-message transcript `msgsC2` with
`context_max_messages = 4`, the smallest user index at or above the
candidate 3 is 4, but the code cuts at index 2 (the nearest user message at
or *below* the candidate), keeping four messages — not the two the claim
demands. -/
theorem compressCutClaim_false : ¬ compressCutClaim 4 msgsC2 := by
  intro hcl
  obtain ⟨i, s, hfind, heq⟩ := hcl (by rw [show msgsC2.length = 5 from rfl]; omega)
  rw [show smallestUserIdxGE msgsC2 (msgsC2.length - 4 / 2) = some 4 from rfl] at hfind
  have hi : i = 4 := (Option.some.inj hfind).symm
  subst hi
  have hlen := congrArg List.length heq
  rw [show (compressContext 4 msgsC2).length = 4 from rfl] at hlen
  simp only [List.length_cons, show (msgsC2.drop 4).length = 1 from rfl] at hlen
  omega

/-- C2 amended: when the transcript exceeds `context_max_messages` (≥ 2, so
the candidate index is in range), the code cuts at the *largest* index
`i ≤ len - context_max_messages/2` whose message has role `user` (searching
downward from the candidate); if that index exists and is positive, the
dropped prefix is replaced by one synthetic user summary message whenever
the summary is non-empty (and by nothing otherwise); and in the resulting
transcript every tool message is still preceded by an assistant message
whose tool_calls contains its tool_call_id, given that the input transcript
satisfies the contiguous pairing invariant. -/
theorem compressContext_downCut (cmm : Nat) (msgs : List Msg)
    (_h2 : 2 ≤ cmm) (hlen : cmm < msgs.length) (hp : StrongPaired msgs) :
    WeakPaired (compressContext cmm msgs)
    ∧ ∀ i, largestUserIdxLE msgs (msgs.length - cmm / 2) = some i → 0 < i →
        compressContext cmm msgs =
          (if (summaryParts (msgs.take i)).isEmpty then msgs.drop i
           else summaryMsg (msgs.take i) :: msgs.drop i) := by
  have hdiv : cmm / 2 ≤ cmm := Nat.div_le_self _ _
  have hc0 : msgs.length - cmm / 2 ≠ 0 := by omega
  have hform : compressContext cmm msgs =
      (if scanUserDown msgs (msgs.length - cmm / 2) = 0 then msgs
       else if (summaryParts (msgs.take (scanUserDown msgs (msgs.length - cmm / 2)))).isEmpty
         then msgs.drop (scanUserDown msgs (msgs.length - cmm / 2))
         else summaryMsg (msgs.take (scanUserDown msgs (msgs.length - cmm / 2)))
           :: msgs.drop (scanUserDown msgs (msgs.length - cmm / 2))) := by
    unfold compressContext
    rw [if_neg (by omega)]
    dsimp only []
    rw [if_neg hc0]
  constructor
  · rw [hform]
    by_cases hz : scanUserDown msgs (msgs.length - cmm / 2) = 0
    · rw [if_pos hz]
      exact weakOfStrong msgs hp
    · rw [if_neg hz]
      have hrole := scanUserDown_role msgs _ hz
      have hwd := dropPaired msgs _ hp hrole
      by_cases hparts :
          (summaryParts (msgs.take (scanUserDown msgs (msgs.length - cmm / 2)))).isEmpty
      · rw [if_pos hparts]
        exact hwd
      · rw [if_neg hparts]
        exact consUserPaired _ _ rfl hwd
  · intro i hfind hi
    rw [hform]
    have hscan : scanUserDown msgs (msgs.length - cmm / 2) = i := by
      rw [scanUserDown_eq_largest, hfind]
      rfl
    rw [hscan, if_neg (by omega)]

/-- Witness for the amended C2: `msgsW` has an assistant/tool pair below the
cut and a user message at the candidate-adjacent index 3; compression keeps
the pairing and prepends the summary. -/
theorem compressContext_downCut_witness :
    WeakPaired (compressContext 4 msgsW)
    ∧ compressContext 4 msgsW = summaryMsg (msgsW.take 3) :: msgsW.drop 3 := by
  have hp : StrongPaired msgsW := by
    intro k hk ht
    have hk5 : k < 5 := by
      rw [show msgsW.length = 5 from rfl] at hk
      exact hk
    interval_cases k
    · exact absurd ht (by decide)
    · exact absurd ht (by decide)
    · exact ⟨1, by omega, by decide, by decide, fun m h1 h2 => absurd h2 (by omega)⟩
    · exact absurd ht (by decide)
    · exact absurd ht (by decide)
  have h := compressContext_downCut 4 msgsW (by omega)
    (by rw [show msgsW.length = 5 from rfl]; omega) hp
  refine ⟨h.1, ?_⟩
  have h2 := h.2 3 (by rfl) (by omega)
  rw [h2, if_neg (by decide)]

/-! ### C4: helper lemmas on the walker state -/

theorem skip_not_interactive (r : String) (h : r ∈ skipRoles) : r ∉ interactiveRoles := by
  fin_cases h <;> decide

theorem bumpAll_append (f : String × String → Nat) (l1 l2 : List (String × String × String)) :
    bumpAll f (l1 ++ l2) = bumpAll (bumpAll f l1) l2 := by
  induction l1 generalizing f with
  | nil => rfl
  | cons hd rest ih =>
    obtain ⟨r, n, v⟩ := hd
    simp only [List.cons_append, bumpAll]
    exact ih (bump f (r, n))

theorem extendRefs_append (c : Nat) (f : String × String → Nat)
    (l1 l2 : List (String × String × String)) :
    extendRefs c f (l1 ++ l2) =
      extendRefs c f l1 ++ extendRefs (c + l1.length) (bumpAll f l1) l2 := by
  induction l1 generalizing c f with
  | nil => simp [extendRefs, bumpAll]
  | cons hd rest ih =>
    obtain ⟨r, n, v⟩ := hd
    simp only [List.cons_append, extendRefs, bumpAll, List.length_cons, List.append_eq]
    rw [ih (c + 1) (bump f (r, n))]
    rw [show c + 1 + rest.length = c + (rest.length + 1) from by omega]

theorem emitSt_st (role name value : String) (st : WalkSt) :
    (emitSt role name value st).2 =
      ⟨st.counter + (if role ∈ interactiveRoles then [(role, name, value)] else []).length,
       st.refMap ++ extendRefs st.counter st.rnCount
         (if role ∈ interactiveRoles then [(role, name, value)] else []),
       bumpAll st.rnCount (if role ∈ interactiveRoles then [(role, name, value)] else [])⟩ := by
  by_cases h : role ∈ interactiveRoles
  · simp [emitSt, h, extendRefs, bumpAll]
  · simp [emitSt, h, extendRefs, bumpAll]

/-- Defining equation of `walkTree` on a node, with the lets expanded. -/
theorem walkTree_mk_eq (role name value : String) (checked expanded selected : Option Bool)
    (level : Option Int) (children : AForest) (d : Nat) (st : WalkSt) :
    walkTree (ATree.mk role name value checked expanded selected level children) d st =
      if role ∈ skipRoles ∧ name = "" then
        (match children with
         | AForest.nil => ([], st)
         | AForest.cons t ts => walkForest (AForest.cons t ts) d st)
      else
        ((String.mk (List.replicate (2 * d) ' ')
            ++ pyJoin " " ((emitSt role name value st).1
              ++ nodeParts role name value checked expanded selected level))
          :: (walkForest children (d + 1) (emitSt role name value st).2).1,
         (walkForest children (d + 1) (emitSt role name value st).2).2) := by
  cases children with
  | nil => rfl
  | cons t0 ts0 => rfl

/-- The per-tree and per-forest state invariants of the walker, proved by
the mutual recursor: the walker threads its state exactly as the sequential
ref-table construction over the interactive pre-order list prescribes. -/
theorem walkTree_st (t : ATree) :
    ∀ (d c : Nat) (m : List (Nat × RefInfo)) (f : String × String → Nat),
    (walkTree t d ⟨c, m, f⟩).2 =
      ⟨c + (interTree t).length, m ++ extendRefs c f (interTree t), bumpAll f (interTree t)⟩ := by
  refine @ATree.rec
    (fun t => ∀ (d c : Nat) (m : List (Nat × RefInfo)) (f : String × String → Nat),
      (walkTree t d ⟨c, m, f⟩).2 =
        ⟨c + (interTree t).length, m ++ extendRefs c f (interTree t), bumpAll f (interTree t)⟩)
    (fun ts => ∀ (d c : Nat) (m : List (Nat × RefInfo)) (f : String × String → Nat),
      (walkForest ts d ⟨c, m, f⟩).2 =
        ⟨c + (interForest ts).length, m ++ extendRefs c f (interForest ts),
         bumpAll f (interForest ts)⟩)
    ?_ ?_ ?_ t
  · intro role name value checked expanded selected level children ihc d c m f
    rw [walkTree_mk_eq]
    by_cases hskip : role ∈ skipRoles ∧ name = ""
    · have hni : role ∉ interactiveRoles := skip_not_interactive role hskip.1
      rw [if_pos hskip]
      cases children with
      | nil =>
        show (([], (⟨c, m, f⟩ : WalkSt)) : List String × WalkSt).2 = _
        simp [interTree, interForest, hni, extendRefs, bumpAll]
      | cons t0 ts0 =>
        show (walkForest (AForest.cons t0 ts0) d ⟨c, m, f⟩).2 = _
        rw [ihc d c m f]
        simp [interTree, hni]
    · rw [if_neg hskip]
      show (walkForest children (d + 1) (emitSt role name value ⟨c, m, f⟩).2).2 = _
      rw [emitSt_st]
      dsimp only []
      rw [ihc (d + 1) _ _ _]
      by_cases hint : role ∈ interactiveRoles
      · simp only [interTree, hint, if_true, List.length_singleton]
        rw [WalkSt.mk.injEq]
        refine ⟨?_, ?_, ?_⟩
        · simp only [List.singleton_append, List.length_cons]
          omega
        · rw [extendRefs_append]
          simp [List.append_assoc]
        · rw [bumpAll_append]
      · simp only [interTree, hint, if_false, List.length_nil, List.nil_append]
        simp [extendRefs, bumpAll]
  · intro d c m f
    simp [walkForest, interForest, extendRefs, bumpAll]
  · intro t0 ts0 iht ihts d c m f
    show (walkForest ts0 d (walkTree t0 d ⟨c, m, f⟩).2).2 = _
    rw [iht d c m f]
    rw [ihts d _ _ _]
    simp only [interForest]
    rw [WalkSt.mk.injEq]
    refine ⟨?_, ?_, ?_⟩
    · rw [List.length_append]
      omega
    · rw [extendRefs_append]
      simp [List.append_assoc]
    · rw [bumpAll_append]

/-- Shifting the positional entry description across a cons: the `(i+1)`-th
entry of the extended list is the `i`-th entry of the tail, with the counter
advanced and the occurrence dict bumped. -/
theorem refSpecEntry_cons (c : Nat) (f : String × String → Nat) (r n v : String)
    (rest : List (String × String × String)) (i : Nat) :
    refSpecEntry c f ((r, n, v) :: rest) (i + 1) =
      refSpecEntry (c + 1) (bump f (r, n)) rest i := by
  unfold refSpecEntry
  simp only [List.getD_cons_succ, List.take_succ_cons]
  by_cases hkey : sameRN (rest.getD i default).1 (rest.getD i default).2.1
      ((r, n, v) : String × String × String) = true
  · have hprop : r = (rest.getD i default).1 ∧ n = (rest.getD i default).2.1 := by
      simpa [sameRN] using hkey
    rw [List.filter_cons_of_pos hkey]
    rw [Prod.mk.injEq, RefInfo.mk.injEq]
    refine ⟨by omega, rfl, rfl, rfl, ?_⟩
    simp only [List.length_cons, bump]
    rw [if_pos (by rw [hprop.1, hprop.2])]
    rw [show ((rest.getD i default).1, (rest.getD i default).2.1) = ((r, n) : String × String)
      from by rw [hprop.1, hprop.2]]
    omega
  · have hprop : ¬(r = (rest.getD i default).1 ∧ n = (rest.getD i default).2.1) := by
      intro hcon
      exact hkey (by simp [sameRN, hcon.1, hcon.2])
    rw [List.filter_cons_of_neg hkey]
    rw [Prod.mk.injEq, RefInfo.mk.injEq]
    refine ⟨by omega, rfl, rfl, rfl, ?_⟩
    simp only [bump]
    rw [if_neg (by
      intro hcon
      rw [Prod.mk.injEq] at hcon
      exact hprop ⟨hcon.1.symm, hcon.2.symm⟩)]

/-- The sequential ref-table construction, characterised positionally. -/
theorem extendRefs_spec (l : List (String × String × String)) :
    ∀ (c : Nat) (f : String × String → Nat),
    extendRefs c f l = (List.range l.length).map (refSpecEntry c f l) := by
  induction l with
  | nil => intro c f; rfl
  | cons hd rest ih =>
    intro c f
    obtain ⟨r, n, v⟩ := hd
    rw [show (((r, n, v) :: rest).length) = rest.length + 1 from rfl,
      List.range_succ_eq_map, List.map_cons, List.map_map]
    simp only [extendRefs]
    rw [List.cons_eq_cons]
    refine ⟨?_, ?_⟩
    · show ((c + 1, ⟨r, n, v, f (r, n)⟩) : Nat × RefInfo) = refSpecEntry c f ((r, n, v) :: rest) 0
      unfold refSpecEntry
      simp
    · rw [ih (c + 1) (bump f (r, n))]
      apply List.map_congr_left
      intro i _
      show refSpecEntry (c + 1) (bump f (r, n)) rest i = refSpecEntry c f ((r, n, v) :: rest) (i + 1)
      exact (refSpecEntry_cons c f r n v rest i).symm

/-! ### C4: refs are dense `1..N` over the interactive pre-order -/

/-- C4: for every parsed tree, the rendering assigns refs to exactly the
interactive-role nodes in pre-order — the ref table is the dense sequence
`1..N` with the per-`(role, name)` occurrence counter as `nth` — and on the
concrete tree whose interactive pre-order is `[button "OK", textbox "User",
button "OK"]` the rendered text contains `[1] button "OK"`,
`[2] textbox "User"` and `[3] button "OK"`, while resolving ref 3 yields the
`button`/`OK` role locator with `nth(1)`. -/
theorem walk_refs_preorder :
    (∀ t : ATree,
      (walkTree t 0 initWalkSt).2.refMap = refSpec (interTree t)
      ∧ (walkTree t 0 initWalkSt).2.counter = (interTree t).length)
    ∧ pyIn "[1] button \"OK\"" (renderText treeOK) = true
    ∧ pyIn "[2] textbox \"User\"" (renderText treeOK) = true
    ∧ pyIn "[3] button \"OK\"" (renderText treeOK) = true
    ∧ refToLocator countOK (walkTree treeOK 0 initWalkSt).2.refMap 3 =
        some (PWLocator.roleName "button" "OK" true (some 1)) := by
  refine ⟨?_, by rfl, by rfl, by rfl, by rfl⟩
  intro t
  rw [show initWalkSt = ⟨0, [], fun _ => 0⟩ from rfl, walkTree_st t 0 0 [] (fun _ => 0)]
  constructor
  · simp only [List.nil_append]
    rw [extendRefs_spec]
    rfl
  · simp

/-! ### C3: the observation policy -/

/-- Behaviour of `get_observation` on a subsequent call, when a previous
flattened observation `old` is held: the zero-change, at-or-above-threshold
and below-threshold branches. -/
theorem getObservation_second (st : SPState) (t : ATree) (old : List (EKey × ENode))
    (hlast : st.lastElements = some old) :
    (changesOf (semanticDiff old (flattenTree t [])) = 0 →
      (getObservation st (some t)).1 = "[页面无变化]")
    ∧ (0 < changesOf (semanticDiff old (flattenTree t [])) →
        st.diffThreshold ≤ (changesOf (semanticDiff old (flattenTree t [])) : ℚ)
          / ((changesOf (semanticDiff old (flattenTree t []))
              + (semanticDiff old (flattenTree t [])).unchangedCount : Nat) : ℚ) →
        (getObservation st (some t)).1 = "[页面快照]\n" ++ renderText t)
    ∧ (0 < changesOf (semanticDiff old (flattenTree t [])) →
        (changesOf (semanticDiff old (flattenTree t [])) : ℚ)
          / ((changesOf (semanticDiff old (flattenTree t []))
              + (semanticDiff old (flattenTree t [])).unchangedCount : Nat) : ℚ)
          < st.diffThreshold →
        (getObservation st (some t)).1 =
          "[页面变化]\n" ++ formatDiff (semanticDiff old (flattenTree t []))
            ++ "\n\n[当前快照]\n" ++ renderText t) := by
  unfold getObservation
  rw [hlast]
  dsimp only []
  have hch : ∀ d : DiffRes,
      changesOf d = d.added.length + d.removed.length + d.modified.length := fun _ => rfl
  refine ⟨?_, ?_, ?_⟩
  · intro h0
    rw [hch] at h0
    rw [if_pos h0]
  · intro hpos hge
    rw [hch] at hpos hge
    rw [if_neg (by omega)]
    have hmax : max ((semanticDiff old (flattenTree t [])).added.length
        + (semanticDiff old (flattenTree t [])).removed.length
        + (semanticDiff old (flattenTree t [])).modified.length
        + (semanticDiff old (flattenTree t [])).unchangedCount) 1 =
        (semanticDiff old (flattenTree t [])).added.length
          + (semanticDiff old (flattenTree t [])).removed.length
          + (semanticDiff old (flattenTree t [])).modified.length
          + (semanticDiff old (flattenTree t [])).unchangedCount := by
      omega
    rw [hmax]
    rw [if_pos hge]
    rfl
  · intro hpos hlt
    rw [hch] at hpos hlt
    rw [if_neg (by omega)]
    have hmax : max ((semanticDiff old (flattenTree t [])).added.length
        + (semanticDiff old (flattenTree t [])).removed.length
        + (semanticDiff old (flattenTree t [])).modified.length
        + (semanticDiff old (flattenTree t [])).unchangedCount) 1 =
        (semanticDiff old (flattenTree t [])).added.length
          + (semanticDiff old (flattenTree t [])).removed.length
          + (semanticDiff old (flattenTree t [])).modified.length
          + (semanticDiff old (flattenTree t [])).unchangedCount := by
      omega
    rw [hmax]
    rw [if_neg (not_le.mpr hlt)]
    rfl

/-- C3: the observation policy.  The first call on a non-empty tree returns
a full snapshot; a second call with zero changes returns the literal
unchanged marker; with a change ratio `changes / (changes + unchanged)` at
or above the threshold (equality included) it returns a full snapshot;
below the threshold it returns the diff followed by the full current
snapshot. -/
theorem getObservation_policy (θ : ℚ) (t1 t2 : ATree) :
    (getObservation (initSPState θ) (some t1)).1 = "[页面快照]\n" ++ renderText t1
    ∧ (changesOf (obsDiff t1 t2) = 0 →
        (getObservation (getObservation (initSPState θ) (some t1)).2 (some t2)).1
          = "[页面无变化]")
    ∧ (0 < changesOf (obsDiff t1 t2) →
        θ ≤ (changesOf (obsDiff t1 t2) : ℚ)
          / ((changesOf (obsDiff t1 t2) + (obsDiff t1 t2).unchangedCount : Nat) : ℚ) →
        (getObservation (getObservation (initSPState θ) (some t1)).2 (some t2)).1
          = "[页面快照]\n" ++ renderText t2)
    ∧ (0 < changesOf (obsDiff t1 t2) →
        (changesOf (obsDiff t1 t2) : ℚ)
          / ((changesOf (obsDiff t1 t2) + (obsDiff t1 t2).unchangedCount : Nat) : ℚ) < θ →
        (getObservation (getObservation (initSPState θ) (some t1)).2 (some t2)).1
          = "[页面变化]\n" ++ formatDiff (obsDiff t1 t2) ++ "\n\n[当前快照]\n" ++ renderText t2) := by
  have hst : (getObservation (initSPState θ) (some t1)).2.lastElements
      = some (flattenTree t1 []) := rfl
  have hθ : (getObservation (initSPState θ) (some t1)).2.diffThreshold = θ := rfl
  have h2 := getObservation_second (getObservation (initSPState θ) (some t1)).2 t2
    (flattenTree t1 []) hst
  rw [hθ] at h2
  exact ⟨rfl, h2.1, h2.2.1, h2.2.2⟩

/-- Witness for C3 at a concrete pair of observations: one textbox value
changes among two elements, the ratio 1/2 is below the default threshold
3/5, so the observation is the diff followed by the full snapshot. -/
theorem getObservation_policy_witness :
    (getObservation (getObservation (initSPState (3 / 5)) (some tW1)).2 (some tW2)).1
      = "[页面变化]\n" ++ formatDiff (obsDiff tW1 tW2) ++ "\n\n[当前快照]\n" ++ renderText tW2 :=
  (getObservation_policy (3 / 5) tW1 tW2).2.2.2 (by decide)
    (by
      rw [show (changesOf (obsDiff tW1 tW2) + (obsDiff tW1 tW2).unchangedCount : Nat) = 2 from rfl,
        show changesOf (obsDiff tW1 tW2) = 1 from rfl]
      norm_num)

end Cassia
